import Mathlib

/-!
Verification development for the ProxyGen deployment-tracking core.

This file shallowly embeds the state-tracking subsystem of the ProxyGen
repository: the deployment inventory (`src/lib/deployment_tracker.py`), the
IP/subnet registry (`src/lib/ip_manager.py`), the cloud-resource import
(`src/lib/cloud_discovery.py`), the multi-region deploy driver and the
post-apply validation (`src/proxygen.py`), and the cost model
(`src/lib/cost_estimator.py`).  Effectful Python code becomes explicit state
passing: the wall clock (`datetime.now()`) is an explicit argument, files
become constructor arguments, and external tools (Terraform, Ansible, cloud
CLIs) become oracle functions supplied by the caller.  Python exceptions
become `Option`/`Except` results.
-/

namespace ProxyGen

/-- A Python scalar value as it occurs in the JSON-backed dicts of the
tracker (`None`, `str`, numbers, `bool`).  Numbers are modelled as exact
rationals. -/
inductive PyVal where
  | vnone
  | vstr (s : String)
  | vnum (q : ℚ)
  | vbool (b : Bool)
deriving Repr, DecidableEq

/-- Python truthiness of a scalar (`if value:`). -/
def PyVal.truthy : PyVal → Bool
  | .vnone => false
  | .vstr s => !(s == "")
  | .vnum q => !(q == 0)
  | .vbool b => b

/-- A Python dict with string keys, modelled as an association list in
insertion order (the dicts built by this code never assign the same key
twice). -/
abbrev PyDict := List (String × PyVal)

/-- `d.get k` -- `None`-defaulting dict lookup (`dict.get(k)`). -/
def PyDict.get (d : PyDict) (k : String) : Option PyVal :=
  (List.find? (fun p => p.1 == k) d).map Prod.snd

/-- `k in d` as a boolean. -/
def PyDict.hasKey (d : PyDict) (k : String) : Bool :=
  (List.find? (fun p => p.1 == k) d).isSome

/-- `dict.get(k, default)`. -/
def PyDict.getD (d : PyDict) (k : String) (v : PyVal) : PyVal :=
  (d.get k).getD v

/-- Coerce a Python value to a number the way Python arithmetic does:
numbers stand for themselves, `True`/`False` are 1/0, and anything else
(`None`, `str`) raises a `TypeError`, modelled as `none`. -/
def PyVal.toNum : PyVal → Option ℚ
  | .vnum q => some q
  | .vbool b => some (if b then 1 else 0)
  | _ => none

/-- An `Option String` as the Python value it denotes (`None` or the
string). -/
def optPy : Option String → PyVal
  | none => .vnone
  | some s => .vstr s

/-- A wall-clock reading, with the calendar fields `strftime` and
`isoformat` expose.  `datetime.now()` becomes an explicit argument of this
type wherever the source reads the clock. -/
structure DateTime where
  year : Nat
  month : Nat
  day : Nat
  hour : Nat
  minute : Nat
  second : Nat
deriving Repr, DecidableEq

/-- Python `datetime` comparison: lexicographic on the calendar fields
(this is exactly how `datetime.__lt__` behaves, and `fromisoformat`
round-trips the stored fields). -/
def DateTime.ltb (a b : DateTime) : Bool :=
  if a.year ≠ b.year then a.year < b.year
  else if a.month ≠ b.month then a.month < b.month
  else if a.day ≠ b.day then a.day < b.day
  else if a.hour ≠ b.hour then a.hour < b.hour
  else if a.minute ≠ b.minute then a.minute < b.minute
  else a.second < b.second

/-- The decimal digit character for `d % 10`. -/
def digitChar (d : Nat) : Char := Char.ofNat (48 + d % 10)

/-- Decimal digit characters of a positive `n` below the fuel bound, most
significant first. -/
def natCharsAux : Nat → Nat → List Char
  | 0, _ => []
  | fuel + 1, n => if n = 0 then [] else natCharsAux fuel (n / 10) ++ [digitChar (n % 10)]

/-- Decimal digit characters of `n`, most significant first (the rendering
`str(n)` / `%d` produce). -/
def natChars (n : Nat) : List Char :=
  if n = 0 then ['0'] else natCharsAux n n

/-- Two-digit zero-padded rendering (`%m`, `%d`, `%H`, `%M`, `%S`). -/
def pad2 (n : Nat) : List Char :=
  if n < 10 then ['0', digitChar n] else natChars n

/-- Characters of `now.strftime("%Y%m%d-%H%M%S")`. -/
def tsChars (t : DateTime) : List Char :=
  natChars t.year ++ pad2 t.month ++ pad2 t.day ++
    '-' :: (pad2 t.hour ++ pad2 t.minute ++ pad2 t.second)

/-- `now.strftime("%Y%m%d-%H%M%S")`. -/
def fmtTimestamp (t : DateTime) : String := String.mk (tsChars t)

/-- Calendar fields in the ranges `strftime` renders with the widths the
spec's regexes assume (4-digit year, 2-digit remaining fields). -/
def DateTime.valid (t : DateTime) : Prop :=
  1000 ≤ t.year ∧ t.year < 10000 ∧ 1 ≤ t.month ∧ t.month ≤ 12 ∧
    1 ≤ t.day ∧ t.day ≤ 31 ∧ t.hour < 24 ∧ t.minute < 60 ∧ t.second < 60

instance (t : DateTime) : Decidable t.valid := by
  unfold DateTime.valid; infer_instance

/-- Python `round` half-to-even, on exact rationals. -/
def roundHalfEven (q : ℚ) : ℤ :=
  if q - ⌊q⌋ < 1/2 then ⌊q⌋
  else if 1/2 < q - ⌊q⌋ then ⌊q⌋ + 1
  else if ⌊q⌋ % 2 = 0 then ⌊q⌋ else ⌊q⌋ + 1

/-- Python `round(q, 2)`. -/
def roundq2 (q : ℚ) : ℚ := (roundHalfEven (q * 100) : ℚ) / 100

/-! ## Tracker-side cost estimation (`DeploymentTracker._estimate_cost`) -/

/-- The `instance_pricing` table of `_estimate_cost` (USD per month). -/
def instancePricing (provider : String) : Option (List (String × ℚ)) :=
  if provider = "aws" then some
    [("t3.nano", 3.80), ("t3.micro", 7.60), ("t3.small", 15.20),
     ("t3.medium", 30.40), ("t3.large", 60.80), ("t2.micro", 8.50),
     ("t2.small", 16.80), ("t2.medium", 33.70)]
  else if provider = "azure" then some
    [("Standard_B1s", 3.80), ("Standard_B1ms", 7.60), ("Standard_B2s", 15.20),
     ("Standard_B2ms", 30.40), ("Standard_B4ms", 60.80), ("Standard_D2s_v3", 70.00)]
  else if provider = "digitalocean" then some
    [("s-1vcpu-1gb", 6.00), ("s-1vcpu-2gb", 12.00), ("s-2vcpu-2gb", 18.00),
     ("s-2vcpu-4gb", 24.00), ("s-4vcpu-8gb", 48.00)]
  else if provider = "hetzner" then some
    [("cx11", 3.60), ("cx21", 6.40), ("cx31", 11.60), ("cx41", 22.00), ("cx51", 43.00)]
  else none

/-- The `additional_costs` table: monthly IP surcharge and per-GB storage. -/
def additionalCosts (provider : String) : Option (ℚ × ℚ) :=
  if provider = "aws" then some (3.60, 0.10)
  else if provider = "azure" then some (3.60, 0.115)
  else if provider = "digitalocean" then some (0, 0.10)
  else if provider = "hetzner" then some (0, 0.05)
  else none

/-- `additional_costs.get(provider, {}).get("ip", 3.60)`. -/
def ipSurcharge (provider : String) : ℚ :=
  match additionalCosts provider with
  | some (ip, _) => ip
  | none => 3.60

/-- `additional_costs.get(provider, {}).get("storage_per_gb", 0.10)`. -/
def storageRate (provider : String) : ℚ :=
  match additionalCosts provider with
  | some (_, st) => st
  | none => 0.10

/-- `default_costs.get(provider, 10.00)`. -/
def defaultMonthlyCost (provider : String) : ℚ :=
  if provider = "aws" then 7.60
  else if provider = "azure" then 7.60
  else if provider = "digitalocean" then 6.00
  else if provider = "hetzner" then 3.60
  else 10.00

/-- `min(instance_pricing[provider].values())` -- minimum over the (nonempty)
price table. -/
def minPrice : List (String × ℚ) → ℚ
  | [] => 0
  | (_, q) :: rest => rest.foldl (fun acc p => min acc p.2) q

/-- The `cost_estimate` record `_estimate_cost` returns. -/
structure CostEstimate where
  monthly : ℚ
  yearly : ℚ
  daily : ℚ
  currency : String
deriving Repr, DecidableEq

/-- `DeploymentTracker._estimate_cost(provider, resources, config)`.
`none` models the only exception this code can raise: `storage_gb` bound to
a non-numeric value, making `storage_gb * rate` a `TypeError`. -/
def estimateCost (provider : String) (resources : PyDict) (config : Option PyDict) :
    Option CostEstimate :=
  -- instance_type = config["instance_type"] if config and "instance_type" in config
  let instanceType : Option PyVal :=
    match config with
    | some c => if c ≠ [] ∧ (PyDict.hasKey c "instance_type") then PyDict.get c "instance_type" else none
    | none => none
  -- if instance_type and provider in instance_pricing: table lookup, falling
  -- back to the cheapest entry; else the per-provider default
  let instCost : ℚ :=
    match instanceType, instancePricing provider with
    | some v, some table =>
      if v.truthy then
        match v with
        | .vstr s =>
          match table.lookup s with
          | some p => p
          | none => minPrice table
        | _ => minPrice table
      else defaultMonthlyCost provider
    | _, _ => defaultMonthlyCost provider
  -- if resources.get("public_ip"): add the IP surcharge
  let withIp : ℚ :=
    if (PyDict.getD resources "public_ip" .vnone).truthy then instCost + ipSurcharge provider
    else instCost
  -- storage_gb = resources.get("storage_gb", 20); monthly += storage_gb * rate
  match (PyDict.getD resources "storage_gb" (.vnum 20)).toNum with
  | none => none
  | some storageGb =>
    let monthly := withIp + storageGb * storageRate provider
    some ⟨roundq2 monthly, roundq2 (monthly * 12), roundq2 (monthly / 30), "USD"⟩

/-! ## IP registry (`IPManager`) -/

/-- One entry of `registry["elastic_ips"]`. -/
structure IPEntry where
  public_ip : PyVal
  deployment_id : String
  provider : String
  region : String
  allocated_at : DateTime
  status : String
  released_at : Option DateTime
deriving Repr, DecidableEq

/-- The persisted `ip_registry.json` content (the `last_updated` metadata
field, rewritten on every save, carries no logic and is omitted). -/
structure IPRegistry where
  elastic_ips : List (String × IPEntry)
  client_subnets : List (String × String)
deriving Repr, DecidableEq

def emptyIPRegistry : IPRegistry := ⟨[], []⟩

/-- Upsert into an association list (Python dict assignment `d[k] = v`). -/
def upsert {α : Type} (k : String) (v : α) : List (String × α) → List (String × α)
  | [] => [(k, v)]
  | (k', v') :: rest => if k' = k then (k, v) :: rest else (k', v') :: upsert k v rest

/-- `IPManager.register_deployment_ip`. -/
def registerDeploymentIp (reg : IPRegistry) (now : DateTime)
    (deploymentId provider region : String) (publicIp : PyVal) : IPRegistry :=
  let key := provider ++ "-" ++ region ++ "-" ++ deploymentId
  let entry : IPEntry := ⟨publicIp, deploymentId, provider, region, now, "active", none⟩
  { reg with elastic_ips := upsert key entry reg.elastic_ips }

/-- The loop body of `release_deployment_ip`: mark the first entry for the
deployment as released (the loop `break`s after one hit). -/
def releaseFirst (now : DateTime) (deploymentId : String) :
    List (String × IPEntry) → List (String × IPEntry)
  | [] => []
  | (k, e) :: rest =>
    if e.deployment_id = deploymentId then
      (k, { e with status := "released", released_at := some now }) :: rest
    else (k, e) :: releaseFirst now deploymentId rest

/-- `IPManager.release_deployment_ip`. -/
def releaseDeploymentIp (reg : IPRegistry) (now : DateTime) (deploymentId : String) :
    IPRegistry :=
  { reg with elastic_ips := releaseFirst now deploymentId reg.elastic_ips }

/-- `IPManager.check_ip_conflicts`: the `public_ip` values of all `active`
entries in the provider/region pair. -/
def checkIpConflicts (reg : IPRegistry) (provider region : String) : List PyVal :=
  (reg.elastic_ips.filter fun p =>
    p.2.provider == provider && p.2.region == region && p.2.status == "active").map
    (fun p => p.2.public_ip)

/-! ### Client subnet generation (`generate_client_subnet`)

The `while subnet in registry["client_subnets"].values():` loop advances
`subnet_base` by `(subnet_base + 1) % 200 + 10` each iteration with the
third octet fixed.  The loop has no bound in the source; we model its
exploration with explicit fuel: the source loop terminates exactly when
some fuel makes the probe succeed. -/

/-- `f"10.{subnet_base}.{subnet_second}.0/24"`. -/
def subnetStr (base second : Nat) : String :=
  "10." ++ toString base ++ "." ++ toString second ++ ".0/24"

/-- One loop step on `subnet_base`. -/
def stepBase (b : Nat) : Nat := (b + 1) % 200 + 10

/-- The probe loop with `fuel` remaining iterations. -/
def probeSubnet (used : List String) (second : Nat) : Nat → Nat → Option String
  | 0, _ => none
  | fuel + 1, base =>
    let s := subnetStr base second
    if s ∈ used then probeSubnet used second fuel (stepBase base)
    else some s

/-- The source's unbounded `while` loop terminates on this state iff some
finite fuel suffices. -/
def probeTerminates (used : List String) (second base : Nat) : Prop :=
  ∃ fuel s, probeSubnet used second fuel base = some s

/-- Initial `subnet_base` from the timestamp: `(timestamp % 200) + 10`. -/
def initBase (timestamp : Nat) : Nat := timestamp % 200 + 10

/-- Third octet from the timestamp: `(timestamp // 200) % 255`. -/
def initSecond (timestamp : Nat) : Nat := (timestamp / 200) % 255

/-! ## Deployment ledger (`DeploymentTracker`) -/

/-- One client record of a deployment. -/
structure ClientRecord where
  name : PyVal
  ip_address : PyVal
  created_at : DateTime
  config_file : PyVal
  active : Bool
deriving Repr, DecidableEq

/-- One deployment record of the inventory. -/
structure Deployment where
  id : String
  provider : String
  region : String
  created_at : DateTime
  status : String
  resources : PyDict
  config : PyDict
  tags : List (String × String)
  cost_estimate : CostEstimate
  clients : List ClientRecord
  destroyed_at : Option DateTime
  last_modified : Option DateTime
deriving Repr, DecidableEq

/-- `inventory["deployments"]`: provider → region → deployment list, with
both dict levels kept in insertion order (the `metadata` block, rewritten
on every save, carries no logic). -/
abbrev Inventory := List (String × List (String × List Deployment))

def emptyInventory : Inventory := []

/-- The whole persisted tracker state: the deployment inventory plus the
IP registry owned by the tracker's `IPManager`. -/
structure TrackerState where
  inventory : Inventory
  ipRegistry : IPRegistry
deriving Repr, DecidableEq

def emptyState : TrackerState := ⟨emptyInventory, emptyIPRegistry⟩

/-- The deployment list of one region bucket (empty when the region key is
absent). -/
def bucketOf (regions : List (String × List Deployment)) (region : String) :
    List Deployment :=
  match List.find? (fun p => p.1 == region) regions with
  | none => []
  | some (_, deps) => deps

/-- `get_deployments_by_region(provider, region)`. -/
def getDeploymentsByRegion (inv : Inventory) (provider region : String) : List Deployment :=
  match List.find? (fun p => p.1 == provider) inv with
  | none => []
  | some (_, regions) => bucketOf regions region

/-- Append a deployment to a region bucket within one provider's dict,
creating the bucket at the end when absent. -/
def insertRegionBucket (region : String) (d : Deployment) :
    List (String × List Deployment) → List (String × List Deployment)
  | [] => [(region, [d])]
  | (r, deps) :: rest =>
    if r = region then (r, deps ++ [d]) :: rest
    else (r, deps) :: insertRegionBucket region d rest

/-- Append a deployment to its provider/region bucket, creating the
buckets in insertion order exactly as `add_deployment` does. -/
def insertDeployment (provider region : String) (d : Deployment) :
    Inventory → Inventory
  | [] => [(provider, [(region, [d])])]
  | (p, regions) :: rest =>
    if p = provider then
      (p, insertRegionBucket region d regions) :: rest
    else
      (p, regions) :: insertDeployment provider region d rest

/-- `DeploymentTracker.add_deployment`.  The wall clock is explicit; the
conflict check only logs, so it has no effect here.  `none` models the one
exception the body can raise (from `_estimate_cost`). -/
def addDeployment (st : TrackerState) (now : DateTime) (deploymentId : String)
    (provider region : String) (resources : PyDict) (config : Option PyDict) :
    Option (String × TrackerState) :=
  -- if not deployment_id: synthesize {provider}-{region}-{timestamp}
  let depId :=
    if deploymentId = "" then
      provider ++ "-" ++ region ++ "-" ++ fmtTimestamp now
    else deploymentId
  -- cost estimate is computed while building the record; an exception here
  -- aborts before any state is written
  match estimateCost provider resources config with
  | none => none
  | some cost =>
    let record : Deployment :=
      { id := depId, provider := provider, region := region, created_at := now,
        status := "active", resources := resources, config := config.getD [],
        tags := [("managed_by", "proxygen"), ("provider", provider), ("region", region)],
        cost_estimate := cost, clients := [], destroyed_at := none, last_modified := none }
    -- if "public_ip" in resources: register it
    let reg' :=
      if PyDict.hasKey resources "public_ip" then
        registerDeploymentIp st.ipRegistry now depId provider region
          (PyDict.getD resources "public_ip" .vnone)
      else st.ipRegistry
    some (depId, ⟨insertDeployment provider region record st.inventory, reg'⟩)

/-- `get_deployment(deployment_id)`: first match in provider, region, list
order. -/
def getDeployment (inv : Inventory) (deploymentId : String) : Option Deployment :=
  inv.findSome? fun p =>
    p.2.findSome? fun r =>
      List.find? (fun d => d.id == deploymentId) r.2

/-- `list_all_deployments()`. -/
def listAllDeployments (inv : Inventory) : List Deployment :=
  inv.flatMap fun p => p.2.flatMap fun r => r.2

/-- Mark the first deployment with the given id in a bucket as destroyed
(`remove_deployment`'s inner loop). -/
def destroyInList (now : DateTime) (deploymentId : String) :
    List Deployment → Option (List Deployment)
  | [] => none
  | d :: rest =>
    if d.id = deploymentId then
      some ({ d with status := "destroyed", destroyed_at := some now } :: rest)
    else (destroyInList now deploymentId rest).map (d :: ·)

/-- `remove_deployment`'s scan over the regions of one provider. -/
def destroyInRegions (now : DateTime) (deploymentId : String) :
    List (String × List Deployment) → Option (List (String × List Deployment))
  | [] => none
  | (r, deps) :: rest =>
    match destroyInList now deploymentId deps with
    | some deps' => some ((r, deps') :: rest)
    | none => (destroyInRegions now deploymentId rest).map ((r, deps) :: ·)

/-- `remove_deployment`'s scan over providers. -/
def destroyInInventory (now : DateTime) (deploymentId : String) :
    Inventory → Option Inventory
  | [] => none
  | (p, regions) :: rest =>
    match destroyInRegions now deploymentId regions with
    | some regions' => some ((p, regions') :: rest)
    | none => (destroyInInventory now deploymentId rest).map ((p, regions) :: ·)

/-- `DeploymentTracker.remove_deployment`: soft-delete.  Returns `none`
when the id is unknown (the Python `return False`); otherwise the first
matching record is marked `destroyed`/stamped and its IP registration is
released. -/
def removeDeployment (st : TrackerState) (now : DateTime) (deploymentId : String) :
    Option TrackerState :=
  (destroyInInventory now deploymentId st.inventory).map fun inv' =>
    ⟨inv', releaseDeploymentIp st.ipRegistry now deploymentId⟩

/-- `destroyed_at` with `created_at` as fallback, as
`cleanup_destroyed_deployments` reads it. -/
def effectiveDestroyedAt (d : Deployment) : DateTime :=
  d.destroyed_at.getD d.created_at

/-- A record survives `cleanup_destroyed_deployments` with the given cutoff. -/
def keptByCleanup (cutoff : DateTime) (d : Deployment) : Bool :=
  !(d.status == "destroyed" && DateTime.ltb (effectiveDestroyedAt d) cutoff)

/-- `DeploymentTracker.cleanup_destroyed_deployments`.  The source computes
`cutoff_date = datetime.now() - timedelta(days=days_old)` with library date
arithmetic; the resulting cutoff instant is the explicit argument here.
Emptied region and provider buckets are pruned; the removed-record count the
Python function returns is the first component. -/
def cleanupDestroyed (cutoff : DateTime) (inv : Inventory) : Nat × Inventory :=
  let inv' : Inventory :=
    inv.filterMap fun p =>
      let regions' := p.2.filterMap fun r =>
        let kept := r.2.filter (keptByCleanup cutoff)
        if kept.isEmpty then none else some (r.1, kept)
      if regions'.isEmpty then none else some (p.1, regions')
  ((listAllDeployments inv).length - (listAllDeployments inv').length, inv')

/-! ## Loading the persisted stores (`load_ip_registry`, `load_inventory`)

A store file is modelled as `Option (Option α)`: `none` when the file does
not exist, `some none` when it exists but `json.load` raises
`JSONDecodeError`, and `some (some x)` when it parses. -/

/-- `IPManager.load_ip_registry`: no handler around `json.load`, so a
corrupt file propagates the parse error. -/
def loadIpRegistry (file : Option (Option IPRegistry)) : Except String IPRegistry :=
  match file with
  | none => .ok emptyIPRegistry
  | some none => .error "JSONDecodeError"
  | some (some reg) => .ok reg

/-- `DeploymentTracker.load_inventory`: `JSONDecodeError` is caught and
falls back to a fresh empty inventory with a warning. -/
def loadInventory (file : Option (Option Inventory)) : Inventory :=
  match file with
  | none => emptyInventory
  | some none => emptyInventory
  | some (some inv) => inv

/-- `DeploymentTracker.__init__`: constructs the `IPManager` (which loads
the IP registry) before `load_inventory`, so an IP-registry parse error
propagates out of the tracker's constructor. -/
def trackerInit (ipFile : Option (Option IPRegistry))
    (invFile : Option (Option Inventory)) : Except String TrackerState :=
  match loadIpRegistry ipFile with
  | .error e => .error e
  | .ok reg => .ok ⟨loadInventory invFile, reg⟩

/-! ## Post-apply validation (`_validate_terraform_deployment`)

File-system and subprocess observations are the arguments: whether the
state file exists and its size, the exit code of `terraform output -json`,
and the parsed outputs (`none` when `json.loads` raises).  Each parsed
output entry is reduced to its `.get("value")` result. -/

/-- The `required_outputs` loop of `_validate_terraform_deployment`:
each required key must be present and its `value` truthy. -/
def requiredOutputsOk (outputs : List (String × PyVal)) : Bool :=
  ["public_ip", "private_key_path"].all fun k =>
    (((List.find? (fun p => p.1 == k) outputs).map Prod.snd).map PyVal.truthy).getD false

/-- `_validate_terraform_deployment`. -/
def validateTerraformDeployment (stateFileExists : Bool) (stateFileSize : Nat)
    (outputReturncode : Int) (parsedOutputs : Option (List (String × PyVal))) : Bool :=
  if !stateFileExists then false
  else if stateFileSize < 1024 then false
  else if outputReturncode ≠ 0 then false
  else
    match parsedOutputs with
    | none => false
    | some outputs => requiredOutputsOk outputs

/-! ## Resource discovery import (`CloudDiscovery.import_discovered_deployments`) -/

/-- A discovered resource as the provider-specific discovery functions
build it.  Fields a provider's discovery does not set are `none` (dict key
absent). -/
structure DiscoveredResource where
  provider : String
  region : String
  instance_id : Option String
  instance_name : Option String
  vm_name : Option String
  resource_group : Option String
  public_ip : Option String
  instance_type : Option String
  deployment_uid : Option String
  created_at : Option String
  discovered_at : String
deriving Repr, DecidableEq

/-- The natural-key comparison of the `exists` check, keyed on the group's
provider name: `existing.get("resources", {}).get(k) == deployment.get(k)`
(Python `None == None` is `True`, captured by comparing `PyVal`s). -/
def matchesNaturalKey (groupProvider : String) (e : Deployment) (d : DiscoveredResource) :
    Bool :=
  if groupProvider = "aws" then
    PyDict.getD e.resources "instance_id" .vnone == optPy d.instance_id
  else if groupProvider = "azure" then
    PyDict.getD e.resources "vm_name" .vnone == optPy d.vm_name
  else if groupProvider = "digitalocean" ∨ groupProvider = "hetzner" then
    PyDict.getD e.resources "instance_name" .vnone == optPy d.instance_name
  else false

/-- `CloudDiscovery._generate_deployment_id`. -/
def generateDeploymentId (d : DiscoveredResource) : String :=
  let uid := d.deployment_uid.getD ""
  if uid ≠ "" then d.provider ++ "-" ++ d.region ++ "-" ++ uid
  else
    let timestamp := d.created_at.getD d.discovered_at
    if timestamp ≠ "" then
      let dateStr := ((timestamp.splitOn "T").headD "").replace "-" ""
      d.provider ++ "-" ++ d.region ++ "-" ++ dateStr ++ "-discovered"
    else d.provider ++ "-" ++ d.region ++ "-discovered"

/-- The provider-specific extension of the stored `resources` dict.
`Except` models the raising `deployment["..."]` accesses (a `KeyError`
would be caught by the importer's outer handler). -/
def discoveredResourceDict (groupProvider : String) (d : DiscoveredResource) :
    Except Unit PyDict :=
  let base : PyDict := [("public_ip", optPy d.public_ip), ("discovered", .vbool true)]
  if groupProvider = "aws" then
    match d.instance_id with
    | some v => .ok (base ++ [("instance_id", .vstr v)])
    | none => .error ()
  else if groupProvider = "azure" then
    match d.vm_name, d.resource_group with
    | some v, some rg => .ok (base ++ [("vm_name", .vstr v), ("resource_group", .vstr rg)])
    | _, _ => .error ()
  else if groupProvider = "digitalocean" ∨ groupProvider = "hetzner" then
    match d.instance_name, d.instance_id with
    | some nm, some iid =>
      .ok (base ++ [("instance_name", .vstr nm), ("instance_id", .vstr iid)])
    | _, _ => .error ()
  else .ok base

/-- One iteration of the import loop: skip when an existing entry in the same
provider/region bucket matches the natural key, otherwise add a new ledger
entry flagged `discovered`.  Returns whether an import happened. -/
def importStep (st : TrackerState) (now : DateTime) (groupProvider : String)
    (d : DiscoveredResource) : Except Unit (Bool × TrackerState) :=
  let existing := getDeploymentsByRegion st.inventory d.provider d.region
  if existing.any (fun e => matchesNaturalKey groupProvider e d) then
    .ok (false, st)
  else
    match discoveredResourceDict groupProvider d with
    | .error e => .error e
    | .ok resources =>
      let config : PyDict :=
        [("instance_type", optPy d.instance_type), ("deployment_uid", optPy d.deployment_uid)]
      match addDeployment st now (generateDeploymentId d) d.provider d.region resources
          (some config) with
      | none => .error ()
      | some (_, st') => .ok (true, st')

/-- The inner `for deployment in provider_deployments` loop.  The final
flag records whether an exception escaped (the outer handler then stops the
whole import, keeping the count so far). -/
def importList (now : DateTime) (groupProvider : String) :
    TrackerState → Nat → List DiscoveredResource → Nat × TrackerState × Bool
  | st, count, [] => (count, st, true)
  | st, count, d :: rest =>
    match importStep st now groupProvider d with
    | .error _ => (count, st, false)
    | .ok (added, st') =>
      importList now groupProvider st' (count + if added then 1 else 0) rest

/-- The outer `for provider, provider_deployments in deployments.items()`
loop. -/
def importGroups (now : DateTime) :
    TrackerState → Nat → List (String × List DiscoveredResource) → Nat × TrackerState
  | st, count, [] => (count, st)
  | st, count, (gp, ds) :: rest =>
    match importList now gp st count ds with
    | (count', st', true) => importGroups now st' count' rest
    | (count', st', false) => (count', st')

/-- `CloudDiscovery.import_discovered_deployments`: returns the imported
count and the tracker state it leaves behind. -/
def importDiscovered (st : TrackerState) (now : DateTime)
    (deployments : List (String × List DiscoveredResource)) : Nat × TrackerState :=
  importGroups now st 0 deployments

/-! ## The deploy driver (`ProxyGen.deploy`)

External collaborators become oracles: `applyOk` is the outcome of
`run_terraform(provider, region, "apply", ...)` for a region, `serverInfo`
the dict `get_terraform_output` returns (`none` when it raises),
`configureOk` the outcome of `configure_wireguard`, `confirm` the answer to
the alpha-provider prompt, `validRegions` the configured region table, and
`times i` the wall clock at the finalize step of the `i`-th region. -/

structure DeployEnv where
  validRegions : String → List String
  confirm : Bool
  applyOk : String → Bool
  serverInfo : String → Option PyDict
  configureOk : String → Bool
  times : Nat → DateTime
  wireguardPort : PyVal
  subnetCfg : PyVal

/-- The outcome of one `deploy` call: the boolean the function returns (an
escaping exception also counts as failure), the tracker state left behind,
the regions for which a Terraform apply was attempted, and the
`(region index, region, id)` triples recorded in the ledger. -/
structure DeployResult where
  success : Bool
  state : TrackerState
  attempted : List String
  recorded : List (Nat × String × String)
deriving Repr, DecidableEq

/-- The per-provider default instance types of `deploy`. -/
def defaultInstanceType (provider : String) : String :=
  if provider = "aws" then "t3.nano"
  else if provider = "azure" then "Standard_B1s"
  else if provider = "digitalocean" then "s-1vcpu-1gb"
  else "cx11"

/-- The per-region loop of `deploy` (non-dry-run flow): apply, fetch
outputs, configure, then register the deployment with an id synthesized
from the wall clock. -/
def deployLoop (env : DeployEnv) (provider instanceType : String) (dryRun : Bool) :
    TrackerState → Nat → List String → List (Nat × String × String) → List String →
    DeployResult
  | st, _, attempted, recorded, [] => ⟨true, st, attempted, recorded⟩
  | st, i, attempted, recorded, r :: rest =>
    let attempted' := attempted ++ [r]
    if !env.applyOk r then ⟨false, st, attempted', recorded⟩
    else
      match env.serverInfo r with
      | none => ⟨false, st, attempted', recorded⟩
      | some serverInfo =>
        if !dryRun && !serverInfo.isEmpty then
          if !env.configureOk r then ⟨false, st, attempted', recorded⟩
          else
            let depId := provider ++ "-" ++ r ++ "-" ++ fmtTimestamp (env.times i)
            let config : PyDict :=
              [("instance_type", .vstr instanceType),
               ("wireguard_port", env.wireguardPort), ("subnet", env.subnetCfg)]
            match addDeployment st (env.times i) depId provider r serverInfo (some config) with
            | none => ⟨false, st, attempted', recorded⟩
            | some (depId', st') =>
              deployLoop env provider instanceType dryRun st' (i + 1) attempted'
                (recorded ++ [(i, r, depId')]) rest
        else
          deployLoop env provider instanceType dryRun st (i + 1) attempted' recorded rest

/-- `ProxyGen.deploy(provider, regions, dry_run, instance_type)`. -/
def deployRun (env : DeployEnv) (st : TrackerState) (provider : String)
    (regions : List String) (dryRun : Bool) (instanceType : Option String) :
    DeployResult :=
  if provider ∉ ["aws", "azure", "digitalocean", "hetzner"] then ⟨false, st, [], []⟩
  else if (provider = "hetzner" ∨ provider = "digitalocean") ∧ !env.confirm then
    ⟨false, st, [], []⟩
  else if regions.any (fun r => !(env.validRegions provider).contains r) then
    ⟨false, st, [], []⟩
  else
    deployLoop env provider (instanceType.getD (defaultInstanceType provider)) dryRun
      st 0 [] [] regions

/-! ## Cost estimator module (`CostEstimator`) -/

/-- `pricing[provider]["instances"]` (USD per hour). -/
def ceInstances (provider : String) : Option (List (String × ℚ)) :=
  if provider = "aws" then some
    [("t3.micro", 0.0104), ("t3.small", 0.0208), ("t3.medium", 0.0416),
     ("t3.large", 0.0832), ("t3.xlarge", 0.1664), ("t4g.micro", 0.0084),
     ("t4g.small", 0.0168), ("t4g.medium", 0.0336)]
  else if provider = "azure" then some
    [("Standard_B1s", 0.0104), ("Standard_B1ms", 0.0207), ("Standard_B2s", 0.0416),
     ("Standard_B2ms", 0.0832), ("Standard_B4ms", 0.1664), ("Standard_D2s_v5", 0.096),
     ("Standard_D4s_v5", 0.192)]
  else if provider = "digitalocean" then some
    [("s-1vcpu-1gb", 0.00833), ("s-1vcpu-2gb", 0.01667), ("s-2vcpu-2gb", 0.02500),
     ("s-2vcpu-4gb", 0.03333), ("s-4vcpu-8gb", 0.06667), ("c-2", 0.04167),
     ("c-4", 0.08333)]
  else if provider = "hetzner" then some
    [("cx11", 0.00500), ("cx21", 0.00889), ("cx31", 0.01611), ("cx41", 0.03056),
     ("cx51", 0.05958), ("cpx11", 0.00639), ("cpx21", 0.01139), ("cpx31", 0.02083)]
  else none

/-- `pricing[provider]["regions"].get(region, 1.0)`. -/
def ceRegionModifier (provider region : String) : ℚ :=
  let table : List (String × ℚ) :=
    if provider = "aws" then
      [("us-east-1", 1.0), ("us-west-2", 1.0), ("eu-west-1", 1.1), ("eu-central-1", 1.15),
       ("ap-southeast-1", 1.2), ("ap-northeast-1", 1.25), ("sa-east-1", 1.4)]
    else if provider = "azure" then
      [("eastus", 1.0), ("westus2", 1.0), ("westeurope", 1.1), ("northeurope", 1.08),
       ("southeastasia", 1.15), ("japaneast", 1.25), ("brazilsouth", 1.35)]
    else if provider = "digitalocean" then
      [("nyc1", 1.0), ("nyc3", 1.0), ("sfo1", 1.0), ("sfo2", 1.0), ("sfo3", 1.0),
       ("ams2", 1.0), ("ams3", 1.0), ("sgp1", 1.0), ("lon1", 1.0), ("fra1", 1.0),
       ("tor1", 1.0), ("blr1", 1.0), ("syd1", 1.0)]
    else if provider = "hetzner" then
      [("fsn1", 1.0), ("nbg1", 1.0), ("hel1", 1.0), ("ash", 1.1), ("hil", 1.1)]
    else []
  (table.lookup region).getD 1.0

/-- `pricing[provider]["ip"]` (USD per hour). -/
def ceIpHourly (provider : String) : ℚ :=
  if provider = "aws" then 0.005
  else if provider = "azure" then 0.004
  else 0

/-- `list(provider_pricing["storage"].keys())[0]`'s rate: the first entry
of the storage dict (USD per GB per month). -/
def ceStorageRate (provider : String) : ℚ :=
  if provider = "aws" then 0.08          -- gp3
  else if provider = "azure" then 0.12   -- standard_ssd
  else if provider = "digitalocean" then 0.10
  else if provider = "hetzner" then 0.05
  else 0

/-- `CostEstimator.calculate_bandwidth_cost` -- tiered bandwidth pricing.
The azure branch in the source stops at the 40TB tier (its higher tiers are
an unwritten `# Similar tiered calculation` comment), leaving `cost = 0.0`
above 51205 GB. -/
def calculateBandwidthCost (provider : String) (bandwidthGb : ℚ) : ℚ :=
  if provider = "aws" then
    if bandwidthGb ≤ 10240 then bandwidthGb * 0.09
    else if bandwidthGb ≤ 51200 then 10240 * 0.09 + (bandwidthGb - 10240) * 0.085
    else if bandwidthGb ≤ 153600 then
      10240 * 0.09 + 40960 * 0.085 + (bandwidthGb - 51200) * 0.07
    else
      10240 * 0.09 + 40960 * 0.085 + 102400 * 0.07 + (bandwidthGb - 153600) * 0.05
  else if provider = "azure" then
    if bandwidthGb ≤ 5 then 0
    else if bandwidthGb ≤ 10245 then (bandwidthGb - 5) * 0.087
    else if bandwidthGb ≤ 51205 then 10240 * 0.087 + (bandwidthGb - 10245) * 0.083
    else 0
  else if provider = "digitalocean" then
    if bandwidthGb ≤ 1000 then 0 else (bandwidthGb - 1000) * 0.01
  else if provider = "hetzner" then
    if bandwidthGb ≤ 20480 then 0 else (bandwidthGb - 20480) / 1024 * 1000 * 0.001
  else 0

/-- The result dict of `estimate_monthly_cost` (the echoed inputs and the
timestamp field carry no logic and are omitted; each breakdown entry is
rounded separately, the totals from the unrounded sum). -/
structure MonthlyEstimate where
  instance_cost : ℚ
  ip_address : ℚ
  bandwidth : ℚ
  storage : ℚ
  total_monthly : ℚ
  total_yearly : ℚ
deriving Repr, DecidableEq

/-- `CostEstimator.estimate_monthly_cost`.  `none` models the two
`ValueError`s (unknown provider / unknown instance type). -/
def estimateMonthlyCost (provider instanceType region : String)
    (bandwidthGb storageGb hoursPerMonth : ℚ) : Option MonthlyEstimate :=
  match ceInstances provider with
  | none => none
  | some table =>
    match table.lookup instanceType with
    | none => none
    | some instanceHourlyBase =>
      let instanceHourly := instanceHourlyBase * ceRegionModifier provider region
      let instanceCost := instanceHourly * hoursPerMonth
      let ipCost := ceIpHourly provider * hoursPerMonth
      let bandwidthCost := calculateBandwidthCost provider bandwidthGb
      let storageCost := ceStorageRate provider * storageGb
      let totalCost := instanceCost + ipCost + bandwidthCost + storageCost
      some ⟨roundq2 instanceCost, roundq2 ipCost, roundq2 bandwidthCost,
        roundq2 storageCost, roundq2 totalCost, roundq2 (totalCost * 12)⟩

/-! ## Theorems -/

/-- C10: if the IP registry file exists but holds invalid JSON, the parse
error escapes `load_ip_registry`, and since `DeploymentTracker.__init__`
builds its `IPManager` before loading the inventory, the tracker itself
fails to load; the corrupted-file fallback to an empty store exists only
for the deployment inventory file, which loads as empty (with a warning)
under the same corruption. -/
theorem claim_C10_corrupt_ip_registry_blocks_tracker :
    (∀ invFile : Option (Option Inventory),
      trackerInit (some none) invFile = .error "JSONDecodeError") ∧
    (∀ reg : IPRegistry,
      trackerInit (some (some reg)) (some none) = .ok ⟨emptyInventory, reg⟩) := by
  constructor
  · intro invFile
    rfl
  · intro reg
    rfl

/-- C6 counterexample: a parsed Terraform output that carries non-empty
`public_ip` and `private_key_path` but no `instance_id` at all passes
`_validate_terraform_deployment`, refuting the claim that a missing
`instance_id` is a validation failure. -/
theorem claim_C6_counterexample :
    validateTerraformDeployment true 2048 0
        (some [("public_ip", .vstr "203.0.113.7"), ("private_key_path", .vstr "/keys/k.pem")])
      = true ∧
    (List.find? (fun p => p.1 == "instance_id")
        [("public_ip", PyVal.vstr "203.0.113.7"), ("private_key_path", PyVal.vstr "/keys/k.pem")])
      = none := by
  constructor
  · rfl
  · rfl

/-- C6 amended: the post-apply validation's required outputs are exactly
`public_ip` and `private_key_path` -- `instance_id` is extracted by
`get_terraform_output` but never validated.  Given a parsed output dict,
validation succeeds iff the state file exists with at least 1024 bytes, the
`terraform output` exit code is zero, and both required outputs are present
with truthy (non-empty) values. -/
theorem claim_C6_amended_required_outputs
    (stateFileExists : Bool) (stateFileSize : Nat) (rc : Int)
    (outs : List (String × PyVal)) :
    validateTerraformDeployment stateFileExists stateFileSize rc (some outs) = true ↔
      (stateFileExists = true ∧ 1024 ≤ stateFileSize ∧ rc = 0 ∧
        ∀ k ∈ (["public_ip", "private_key_path"] : List String),
          ∃ v, (List.find? (fun p => p.1 == k) outs).map Prod.snd = some v ∧
            v.truthy = true) := by
  have hopt : ∀ o : Option PyVal,
      ((o.map PyVal.truthy).getD false = true) ↔ ∃ v, o = some v ∧ v.truthy = true := by
    intro o; cases o <;> simp
  unfold validateTerraformDeployment requiredOutputsOk
  cases stateFileExists with
  | false =>
    apply iff_of_false
    · intro h; rw [if_pos (by simp)] at h; exact absurd h (by simp)
    · rintro ⟨h, -⟩; exact absurd h (by simp)
  | true =>
    by_cases hsz : stateFileSize < 1024
    · apply iff_of_false
      · intro h; rw [if_neg (by simp), if_pos hsz] at h; exact absurd h (by simp)
      · rintro ⟨-, h, -⟩; omega
    · by_cases hrc : rc = 0
      · subst hrc
        rw [if_neg (by simp), if_neg hsz, if_neg (by simp)]
        rw [List.all_eq_true]
        simp only [hopt]
        constructor
        · intro h
          exact ⟨by trivial, by omega, by trivial, h⟩
        · rintro ⟨-, -, -, h⟩
          exact h
      · apply iff_of_false
        · intro h; rw [if_neg (by simp), if_neg hsz, if_pos hrc] at h
          exact absurd h (by simp)
        · rintro ⟨-, -, h, -⟩; exact hrc h

/-! ### C3: termination of the subnet probe -/

/-- Iterating the probe's `subnet_base` step. -/
def iterBase : Nat → Nat → Nat
  | 0, b => b
  | k + 1, b => iterBase k (stepBase b)

theorem stepBase_mem_range (b : Nat) : 10 ≤ stepBase b ∧ stepBase b < 210 := by
  unfold stepBase; omega

theorem iterBase_eq (k : Nat) : ∀ b, 10 ≤ b → b < 210 →
    iterBase k b = (b - 10 + 11 * k) % 200 + 10 := by
  induction k with
  | zero => intro b h1 h2; unfold iterBase; omega
  | succ k ih =>
    intro b h1 h2
    show iterBase k (stepBase b) = _
    rw [ih (stepBase b) (stepBase_mem_range b).1 (stepBase_mem_range b).2]
    unfold stepBase
    omega

theorem probe_none_mem (used : List String) (second : Nat) :
    ∀ n b, probeSubnet used second n b = none →
      ∀ k, k < n → subnetStr (iterBase k b) second ∈ used := by
  intro n
  induction n with
  | zero => intro b _ k hk; omega
  | succ n ih =>
    intro b h k hk
    unfold probeSubnet at h
    by_cases hmem : subnetStr b second ∈ used
    · rw [if_pos hmem] at h
      match k with
      | 0 => exact hmem
      | k + 1 => exact ih (stepBase b) h k (by omega)
    · rw [if_neg hmem] at h
      exact absurd h (by simp)

theorem probe_none_of_all_used (used : List String) (second : Nat)
    (hall : ∀ b, 10 ≤ b → b < 210 → subnetStr b second ∈ used) :
    ∀ fuel base, 10 ≤ base → base < 210 →
      probeSubnet used second fuel base = none := by
  intro fuel
  induction fuel with
  | zero => intro base _ _; rfl
  | succ n ih =>
    intro base h1 h2
    unfold probeSubnet
    rw [if_pos (hall base h1 h2)]
    exact ih (stepBase base) (stepBase_mem_range base).1 (stepBase_mem_range base).2

/-- A registry state in which every candidate subnet of the probe's
deterministic range (third octet 0) is already assigned. -/
def fullUsed : List String := (List.range 200).map (fun i => subnetStr (i + 10) 0)

theorem mem_fullUsed (b : Nat) (h1 : 10 ≤ b) (h2 : b < 210) :
    subnetStr b 0 ∈ fullUsed := by
  unfold fullUsed
  refine List.mem_map.mpr ⟨b - 10, List.mem_range.mpr (by omega), ?_⟩
  congr 1
  omega

/-- C3 counterexample: on the registry state in which the 200 candidate
`/24`s for the timestamp-derived third octet are all assigned (here
timestamp 0, so octet 0 and starting base 10), `generate_client_subnet`'s
`while` loop finds no free subnet at any iteration count -- it never
terminates, refuting termination for every registry state. -/
theorem claim_C3_counterexample :
    ¬ probeTerminates fullUsed (initSecond 0) (initBase 0) := by
  rintro ⟨fuel, s, h⟩
  have h0 : initSecond 0 = 0 := rfl
  have h1 : initBase 0 = 10 := rfl
  rw [h0, h1] at h
  rw [probe_none_of_all_used fullUsed 0 (fun b hb1 hb2 => mem_fullUsed b hb1 hb2)
    fuel 10 (by omega) (by omega)] at h
  exact absurd h (by simp)

/-- C3 amended: the linear probe of `generate_client_subnet` is bounded by
the 200-slot deterministic range only conditionally: starting from any
in-range base it succeeds within 200 iterations whenever at least one
candidate subnet (bases 10-209, third octet fixed) is unassigned, but when
every candidate is assigned the loop runs forever -- there is no defined
failure mode. -/
theorem claim_C3_amended_probe_termination (used : List String) (second base : Nat)
    (hb1 : 10 ≤ base) (hb2 : base < 210) :
    ((∃ b, 10 ≤ b ∧ b < 210 ∧ subnetStr b second ∉ used) →
      (probeSubnet used second 200 base).isSome = true) ∧
    ((∀ b, 10 ≤ b → b < 210 → subnetStr b second ∈ used) →
      ∀ fuel, probeSubnet used second fuel base = none) := by
  constructor
  · rintro ⟨b0, h10, h210, hfree⟩
    cases hres : probeSubnet used second 200 base with
    | some s => rfl
    | none =>
      exfalso
      apply hfree
      have hk : (91 * ((b0 - 10) + 200 - (base - 10))) % 200 < 200 :=
        Nat.mod_lt _ (by norm_num)
      have hmem := probe_none_mem used second 200 base hres
        ((91 * ((b0 - 10) + 200 - (base - 10))) % 200) hk
      rw [iterBase_eq _ base hb1 hb2] at hmem
      have harith :
          (base - 10 + 11 * ((91 * ((b0 - 10) + 200 - (base - 10))) % 200)) % 200 + 10
            = b0 := by
        omega
      rwa [harith] at hmem
  · intro hall fuel
    exact probe_none_of_all_used used second hall fuel base hb1 hb2

/-- C3 amended, witness: with only `10.10.0.0/24` assigned, the probe from
base 10 (octet 0) succeeds within the 200-iteration bound. -/
theorem claim_C3_amended_witness :
    10 ≤ 10 ∧ 10 < 210 ∧
      (probeSubnet ["10.10.0.0/24"] 0 200 10).isSome = true := by
  refine ⟨by omega, by omega, ?_⟩
  exact (claim_C3_amended_probe_termination ["10.10.0.0/24"] 0 10 (by omega) (by omega)).1
    ⟨11, by omega, by omega, by decide⟩

/-! ### C1: ids of `add_deployment` calls without an explicit id -/

theorem String.append_cancel_left {p a b : String} (h : p ++ a = p ++ b) : a = b := by
  have h2 := congrArg String.data h
  simp only [String.data_append] at h2
  have h3 := List.append_cancel_left h2
  cases a; cases b; simp_all

/-- The id returned by `add_deployment` when called with an empty id is the
synthesized `{provider}-{region}-{timestamp}`. -/
theorem addDeployment_fst_of_empty_id (st : TrackerState) (now : DateTime)
    (p r : String) (res : PyDict) (cfg : Option PyDict) (q : String × TrackerState)
    (h : addDeployment st now "" p r res cfg = some q) :
    q.1 = p ++ "-" ++ r ++ "-" ++ fmtTimestamp now := by
  unfold addDeployment at h
  cases hc : estimateCost p res cfg with
  | none => rw [hc] at h; exact absurd h (by simp)
  | some cost =>
    rw [hc] at h
    simp only [Option.some_inj] at h
    rw [← h]
    rfl

/-- Sample `resources` argument used by concrete scenarios. -/
def sampleResources : PyDict := [("public_ip", .vstr "1.2.3.4")]

/-- Sample `config` argument used by concrete scenarios. -/
def sampleConfig : PyDict := [("instance_type", .vstr "t3.micro")]

/-- C1 counterexample: two successive `add_deployment` calls with an empty
id, the same provider/region, and the same wall-clock second both succeed
and return the identical id `aws-us-east-1-20250101-000000` -- the
synthesized id has only second granularity and carries no random
component, refuting pairwise distinctness. -/
theorem claim_C1_counterexample :
    ((addDeployment emptyState ⟨2025, 1, 1, 0, 0, 0⟩ "" "aws" "us-east-1"
        sampleResources (some sampleConfig)).bind
      (fun q1 => (addDeployment q1.2 ⟨2025, 1, 1, 0, 0, 0⟩ "" "aws" "us-east-1"
        sampleResources (some sampleConfig)).map
        (fun q2 => (q1.1, q2.1)))) =
      some ("aws-us-east-1-20250101-000000", "aws-us-east-1-20250101-000000") := by
  decide

/-- C1 amended: two successful `add_deployment` calls with an empty id and
the same provider/region return distinct ids exactly when their wall-clock
timestamps differ at the second granularity of `strftime("%Y%m%d-%H%M%S")`;
calls within the same formatted second collide. -/
theorem claim_C1_amended_distinct_ids (st : TrackerState) (t1 t2 : DateTime)
    (p r : String) (res : PyDict) (cfg : Option PyDict) (id1 id2 : String)
    (hne : fmtTimestamp t1 ≠ fmtTimestamp t2)
    (h1 : (addDeployment st t1 "" p r res cfg).map Prod.fst = some id1)
    (h2 : ((addDeployment st t1 "" p r res cfg).bind
      (fun q => addDeployment q.2 t2 "" p r res cfg)).map Prod.fst = some id2) :
    id1 ≠ id2 := by
  obtain ⟨q1, hq1, hid1⟩ : ∃ q, addDeployment st t1 "" p r res cfg = some q ∧ q.1 = id1 := by
    cases hx : addDeployment st t1 "" p r res cfg <;> simp_all
  rw [hq1] at h2
  simp only [Option.some_bind] at h2
  obtain ⟨q2, hq2, hid2⟩ : ∃ q, addDeployment q1.2 t2 "" p r res cfg = some q ∧ q.1 = id2 := by
    cases hx : addDeployment q1.2 t2 "" p r res cfg <;> simp_all
  have e1 := addDeployment_fst_of_empty_id st t1 p r res cfg q1 hq1
  have e2 := addDeployment_fst_of_empty_id q1.2 t2 p r res cfg q2 hq2
  intro hcontra
  apply hne
  have : p ++ "-" ++ r ++ "-" ++ fmtTimestamp t1 = p ++ "-" ++ r ++ "-" ++ fmtTimestamp t2 := by
    rw [← e1, ← e2, hid1, hid2, hcontra]
  have h4 : (p ++ "-" ++ r ++ "-") ++ fmtTimestamp t1 = (p ++ "-" ++ r ++ "-") ++ fmtTimestamp t2 := by
    simpa [String.append_assoc] using this
  exact String.append_cancel_left h4

/-- C1 amended, witness: two adds one second apart yield distinct ids. -/
theorem claim_C1_amended_witness :
    fmtTimestamp ⟨2025, 1, 1, 0, 0, 0⟩ ≠ fmtTimestamp ⟨2025, 1, 1, 0, 0, 1⟩ ∧
    (addDeployment emptyState ⟨2025, 1, 1, 0, 0, 0⟩ "" "aws" "us-east-1"
        sampleResources (some sampleConfig)).map Prod.fst =
      some "aws-us-east-1-20250101-000000" ∧
    ((addDeployment emptyState ⟨2025, 1, 1, 0, 0, 0⟩ "" "aws" "us-east-1"
        sampleResources (some sampleConfig)).bind
      (fun q => addDeployment q.2 ⟨2025, 1, 1, 0, 0, 1⟩ "" "aws" "us-east-1"
        sampleResources (some sampleConfig))).map Prod.fst =
      some "aws-us-east-1-20250101-000001" ∧
    "aws-us-east-1-20250101-000000" ≠ "aws-us-east-1-20250101-000001" := by
  refine ⟨by decide, by decide, by decide, ?_⟩
  exact claim_C1_amended_distinct_ids emptyState ⟨2025, 1, 1, 0, 0, 0⟩ ⟨2025, 1, 1, 0, 0, 1⟩
    "aws" "us-east-1" sampleResources (some sampleConfig)
    "aws-us-east-1-20250101-000000" "aws-us-east-1-20250101-000001"
    (by decide) (by decide) (by decide)

/-! ### Shape of the `%Y%m%d-%H%M%S` timestamp -/

theorem digitChar_isDigit (d : Nat) : (digitChar d).isDigit = true := by
  unfold digitChar
  have h : d % 10 < 10 := Nat.mod_lt _ (by norm_num)
  generalize hm : d % 10 = m at h
  interval_cases m <;> decide

theorem natCharsAux_all_digit : ∀ fuel n, (natCharsAux fuel n).all Char.isDigit = true := by
  intro fuel
  induction fuel with
  | zero => intro n; rfl
  | succ fuel ih =>
    intro n
    unfold natCharsAux
    by_cases hn : n = 0
    · rw [if_pos hn]; rfl
    · rw [if_neg hn, List.all_append]
      rw [ih (n / 10)]
      simp [digitChar_isDigit]

theorem natChars_all_digit (n : Nat) : (natChars n).all Char.isDigit = true := by
  unfold natChars
  by_cases hn : n = 0
  · rw [if_pos hn]; rfl
  · rw [if_neg hn]; exact natCharsAux_all_digit n n

theorem natCharsAux_zero : ∀ fuel, natCharsAux fuel 0 = [] := by
  intro fuel
  cases fuel with
  | zero => rfl
  | succ fuel => unfold natCharsAux; rw [if_pos rfl]

theorem natCharsAux_length : ∀ fuel n, n ≠ 0 → n ≤ fuel →
    (natCharsAux fuel n).length = Nat.log 10 n + 1 := by
  intro fuel
  induction fuel with
  | zero => intro n h1 h2; omega
  | succ fuel ih =>
    intro n h1 h2
    unfold natCharsAux
    rw [if_neg h1, List.length_append]
    by_cases hlt : n < 10
    · have hd : n / 10 = 0 := by omega
      rw [hd, natCharsAux_zero]
      have : Nat.log 10 n = 0 := Nat.log_eq_zero_iff.mpr (Or.inl hlt)
      simp [this]
    · have hne : n / 10 ≠ 0 := by omega
      rw [ih (n / 10) hne (by omega)]
      have hlog : Nat.log 10 (n / 10) = Nat.log 10 n - 1 := Nat.log_div_base 10 n
      have hpos : 0 < Nat.log 10 n := Nat.log_pos (by norm_num) (by omega)
      simp only [List.length_cons, List.length_nil]
      omega

theorem natChars_length4 (n : Nat) (h1 : 1000 ≤ n) (h2 : n < 10000) :
    (natChars n).length = 4 := by
  unfold natChars
  rw [if_neg (by omega)]
  rw [natCharsAux_length n n (by omega) (le_refl n)]
  have : Nat.log 10 n = 3 :=
    Nat.log_eq_of_pow_le_of_lt_pow (by norm_num; omega) (by norm_num; omega)
  omega

theorem pad2_length (n : Nat) (h : n < 100) : (pad2 n).length = 2 := by
  unfold pad2
  by_cases hlt : n < 10
  · rw [if_pos hlt]; rfl
  · rw [if_neg hlt]
    unfold natChars
    rw [if_neg (by omega)]
    rw [natCharsAux_length n n (by omega) (le_refl n)]
    have : Nat.log 10 n = 1 :=
      Nat.log_eq_of_pow_le_of_lt_pow (by norm_num; omega) (by norm_num; omega)
    omega

theorem pad2_all_digit (n : Nat) : (pad2 n).all Char.isDigit = true := by
  unfold pad2
  by_cases hlt : n < 10
  · rw [if_pos hlt]
    simp [digitChar_isDigit]
  · rw [if_neg hlt]
    exact natChars_all_digit n

/-- The regex shape `\d{8}-\d{6}` anchored over the whole string. -/
def tsShape (ts : String) : Prop :=
  ∃ a b, ts.data = a ++ '-' :: b ∧ a.length = 8 ∧ a.all Char.isDigit = true ∧
    b.length = 6 ∧ b.all Char.isDigit = true

/-- For any wall-clock reading with fields in `strftime` ranges, the
synthesized timestamp is eight digits, a dash, six digits. -/
theorem fmtTimestamp_tsShape (t : DateTime) (h : t.valid) : tsShape (fmtTimestamp t) := by
  obtain ⟨hy1, hy2, hm1, hm2, hd1, hd2, hh, hmin, hs⟩ := h
  refine ⟨natChars t.year ++ pad2 t.month ++ pad2 t.day,
    pad2 t.hour ++ pad2 t.minute ++ pad2 t.second, ?_, ?_, ?_, ?_, ?_⟩
  · show tsChars t = _
    unfold tsChars
    simp [List.append_assoc]
  · rw [List.length_append, List.length_append]
    rw [natChars_length4 t.year hy1 hy2, pad2_length t.month (by omega),
      pad2_length t.day (by omega)]
  · rw [List.all_append, List.all_append]
    rw [natChars_all_digit, pad2_all_digit, pad2_all_digit]
    rfl
  · rw [List.length_append, List.length_append]
    rw [pad2_length t.hour (by omega), pad2_length t.minute (by omega),
      pad2_length t.second (by omega)]
  · rw [List.all_append, List.all_append]
    rw [pad2_all_digit, pad2_all_digit, pad2_all_digit]
    rfl

/-! ### Effect of an insertion on the region buckets -/

theorem bucketOf_cons_pos (r0 : String) (deps : List Deployment)
    (tl : List (String × List Deployment)) (r' : String) (h : r0 = r') :
    bucketOf ((r0, deps) :: tl) r' = deps := by
  unfold bucketOf
  rw [List.find?_cons_of_pos _ (by simp [h])]

theorem bucketOf_cons_neg (r0 : String) (deps : List Deployment)
    (tl : List (String × List Deployment)) (r' : String) (h : r0 ≠ r') :
    bucketOf ((r0, deps) :: tl) r' = bucketOf tl r' := by
  unfold bucketOf
  rw [List.find?_cons_of_neg _ (by simp [h])]

theorem bucketOf_nil (r' : String) : bucketOf [] r' = [] := rfl

theorem bucketOf_insertRegionBucket (r : String) (d : Deployment) :
    ∀ (l : List (String × List Deployment)) (r' : String),
      bucketOf (insertRegionBucket r d l) r' =
        bucketOf l r' ++ (if r = r' then [d] else []) := by
  intro l
  induction l with
  | nil =>
    intro r'
    show bucketOf [(r, [d])] r' = bucketOf [] r' ++ _
    by_cases h : r = r'
    · rw [bucketOf_cons_pos r [d] [] r' h, bucketOf_nil, if_pos h]
      rfl
    · rw [bucketOf_cons_neg r [d] [] r' h, bucketOf_nil, if_neg h]
      rfl
  | cons hd tl ih =>
    intro r'
    obtain ⟨r0, deps⟩ := hd
    unfold insertRegionBucket
    by_cases h0 : r0 = r
    · rw [if_pos h0]
      subst h0
      by_cases h' : r0 = r'
      · rw [bucketOf_cons_pos r0 (deps ++ [d]) tl r' h',
          bucketOf_cons_pos r0 deps tl r' h', if_pos h']
      · rw [bucketOf_cons_neg r0 (deps ++ [d]) tl r' h',
          bucketOf_cons_neg r0 deps tl r' h', if_neg h']
        simp
    · rw [if_neg h0]
      by_cases h' : r0 = r'
      · have hr : r ≠ r' := fun hc => h0 (hc ▸ h')
        rw [bucketOf_cons_pos r0 deps _ r' h', bucketOf_cons_pos r0 deps tl r' h',
          if_neg hr]
        simp
      · rw [bucketOf_cons_neg r0 deps _ r' h', bucketOf_cons_neg r0 deps tl r' h']
        exact ih r'

theorem getDBR_cons_pos (p0 : String) (regions : List (String × List Deployment))
    (tl : Inventory) (p' r' : String) (h : p0 = p') :
    getDeploymentsByRegion ((p0, regions) :: tl) p' r' = bucketOf regions r' := by
  unfold getDeploymentsByRegion
  rw [List.find?_cons_of_pos _ (by simp [h])]

theorem getDBR_cons_neg (p0 : String) (regions : List (String × List Deployment))
    (tl : Inventory) (p' r' : String) (h : p0 ≠ p') :
    getDeploymentsByRegion ((p0, regions) :: tl) p' r' =
      getDeploymentsByRegion tl p' r' := by
  unfold getDeploymentsByRegion
  rw [List.find?_cons_of_neg _ (by simp [h])]

theorem getDBR_nil (p' r' : String) : getDeploymentsByRegion [] p' r' = [] := rfl

theorem getDBR_insert (p r : String) (d : Deployment) :
    ∀ (inv : Inventory) (p' r' : String),
      getDeploymentsByRegion (insertDeployment p r d inv) p' r' =
        getDeploymentsByRegion inv p' r' ++
          (if p = p' ∧ r = r' then [d] else []) := by
  intro inv
  induction inv with
  | nil =>
    intro p' r'
    show getDeploymentsByRegion [(p, [(r, [d])])] p' r' = _
    rw [getDBR_nil]
    by_cases hp : p = p'
    · rw [getDBR_cons_pos p [(r, [d])] [] p' r' hp]
      by_cases hr : r = r'
      · rw [bucketOf_cons_pos r [d] [] r' hr, if_pos ⟨hp, hr⟩]
        rfl
      · rw [bucketOf_cons_neg r [d] [] r' hr, bucketOf_nil,
          if_neg (fun hc => hr hc.2)]
        rfl
    · rw [getDBR_cons_neg p [(r, [d])] [] p' r' hp, getDBR_nil,
        if_neg (fun hc => hp hc.1)]
      rfl
  | cons hd tl ih =>
    intro p' r'
    obtain ⟨p0, regions⟩ := hd
    unfold insertDeployment
    by_cases h0 : p0 = p
    · rw [if_pos h0]
      subst h0
      by_cases hp' : p0 = p'
      · rw [getDBR_cons_pos p0 _ tl p' r' hp', getDBR_cons_pos p0 regions tl p' r' hp',
          bucketOf_insertRegionBucket]
        simp [hp']
      · rw [getDBR_cons_neg p0 _ tl p' r' hp', getDBR_cons_neg p0 regions tl p' r' hp',
          if_neg (fun hc => hp' hc.1)]
        simp
    · rw [if_neg h0]
      by_cases hp' : p0 = p'
      · have hne : ¬(p = p' ∧ r = r') := fun hc => h0 (hp' ▸ hc.1.symm)
        rw [getDBR_cons_pos p0 regions _ p' r' hp', getDBR_cons_pos p0 regions tl p' r' hp',
          if_neg hne]
        simp
      · rw [getDBR_cons_neg p0 regions _ p' r' hp', getDBR_cons_neg p0 regions tl p' r' hp']
        exact ih p' r'

/-! ### C8: the concrete `add` scenario -/

/-- The cost estimate the tracker computes for the sample scenario:
t3.micro at 7.60 USD/month, plus the 3.60 IP surcharge (a public IP is
present), plus 20 GB at 0.10 USD/GB. -/
theorem estimateCost_sample :
    estimateCost "aws" sampleResources (some sampleConfig) =
      some ⟨roundq2 (7.60 + 3.60 + 20 * 0.10),
        roundq2 ((7.60 + 3.60 + 20 * 0.10) * 12),
        roundq2 ((7.60 + 3.60 + 20 * 0.10) / 30), "USD"⟩ := rfl

theorem roundq2_sample_monthly : roundq2 ((7.60 : ℚ) + 3.60 + 20 * 0.10) = 13.20 := by
  norm_num [roundq2, roundHalfEven]

theorem aws_useast1_prefix (ts : String) :
    "aws" ++ "-" ++ "us-east-1" ++ "-" ++ ts = "aws-us-east-1-" ++ ts := rfl

/-- The ledger record the sample scenario appends. -/
def sampleRecord (now : DateTime) : Deployment :=
  { id := "aws-us-east-1-" ++ fmtTimestamp now, provider := "aws", region := "us-east-1",
    created_at := now, status := "active", resources := sampleResources,
    config := sampleConfig,
    tags := [("managed_by", "proxygen"), ("provider", "aws"), ("region", "us-east-1")],
    cost_estimate := ⟨roundq2 (7.60 + 3.60 + 20 * 0.10),
      roundq2 ((7.60 + 3.60 + 20 * 0.10) * 12),
      roundq2 ((7.60 + 3.60 + 20 * 0.10) / 30), "USD"⟩,
    clients := [], destroyed_at := none, last_modified := none }

theorem addDeployment_sample (st : TrackerState) (now : DateTime) :
    addDeployment st now "" "aws" "us-east-1" sampleResources (some sampleConfig) =
      some ("aws-us-east-1-" ++ fmtTimestamp now,
        ⟨insertDeployment "aws" "us-east-1" (sampleRecord now) st.inventory,
          registerDeploymentIp st.ipRegistry now ("aws-us-east-1-" ++ fmtTimestamp now)
            "aws" "us-east-1" (.vstr "1.2.3.4")⟩) := rfl

/-- C8: `add("", "aws", "us-east-1", {public_ip: "1.2.3.4"},
{instance_type: "t3.micro"})` succeeds for every wall-clock instant (with
fields in `strftime` ranges), returns an id matching
`^aws-us-east-1-\d{8}-\d{6}$`, and appends a ledger record with status
`active` whose `cost_estimate.monthly` is 7.60 + 3.60 + 2.00 = 13.20 USD. -/
theorem claim_C8_concrete_add_scenario (st : TrackerState) (now : DateTime)
    (hval : now.valid) :
    ∃ q : String × TrackerState,
      addDeployment st now "" "aws" "us-east-1" sampleResources (some sampleConfig) =
          some q ∧
      (∃ ts, q.1 = "aws-us-east-1-" ++ ts ∧ tsShape ts) ∧
      (∃ rec, getDeploymentsByRegion q.2.inventory "aws" "us-east-1" =
          getDeploymentsByRegion st.inventory "aws" "us-east-1" ++ [rec] ∧
        rec.id = q.1 ∧ rec.status = "active" ∧ rec.cost_estimate.monthly = 13.20) := by
  refine ⟨_, addDeployment_sample st now,
    ⟨fmtTimestamp now, rfl, fmtTimestamp_tsShape now hval⟩,
    ⟨sampleRecord now, ?_, rfl, rfl, roundq2_sample_monthly⟩⟩
  show getDeploymentsByRegion (insertDeployment "aws" "us-east-1" (sampleRecord now)
    st.inventory) "aws" "us-east-1" = _
  rw [getDBR_insert]
  rw [if_pos ⟨rfl, rfl⟩]

/-- C8 witness: the scenario at the wall clock 2025-10-12 14:30:05. -/
theorem claim_C8_witness :
    DateTime.valid ⟨2025, 10, 12, 14, 30, 5⟩ ∧
    (∃ q : String × TrackerState,
      addDeployment emptyState ⟨2025, 10, 12, 14, 30, 5⟩ "" "aws" "us-east-1"
          sampleResources (some sampleConfig) = some q ∧
      (∃ ts, q.1 = "aws-us-east-1-" ++ ts ∧ tsShape ts) ∧
      (∃ rec, getDeploymentsByRegion q.2.inventory "aws" "us-east-1" =
          getDeploymentsByRegion emptyState.inventory "aws" "us-east-1" ++ [rec] ∧
        rec.id = q.1 ∧ rec.status = "active" ∧ rec.cost_estimate.monthly = 13.20)) :=
  ⟨by decide, claim_C8_concrete_add_scenario emptyState ⟨2025, 10, 12, 14, 30, 5⟩ (by decide)⟩

/-! ### C2: soft delete, IP release, and time-based cleanup -/

theorem destroyInList_none (now : DateTime) (depId : String) :
    ∀ l, destroyInList now depId l = none →
      List.find? (fun d => d.id == depId) l = none := by
  intro l
  induction l with
  | nil => intro _; rfl
  | cons d rest ih =>
    intro h
    unfold destroyInList at h
    by_cases hd : d.id = depId
    · rw [if_pos hd] at h
      exact absurd h (by simp)
    · rw [if_neg hd] at h
      rw [List.find?_cons_of_neg _ (by simp [hd])]
      cases hx : destroyInList now depId rest with
      | none => exact ih hx
      | some l' => rw [hx] at h; exact absurd h (by simp)

theorem destroyInList_some (now : DateTime) (depId : String) :
    ∀ l l', destroyInList now depId l = some l' →
      ∃ d0, List.find? (fun d => d.id == depId) l' = some d0 ∧
        d0.status = "destroyed" ∧ d0.destroyed_at = some now := by
  intro l
  induction l with
  | nil => intro l' h; exact absurd h (by simp [destroyInList])
  | cons d rest ih =>
    intro l' h
    unfold destroyInList at h
    by_cases hd : d.id = depId
    · rw [if_pos hd] at h
      simp only [Option.some_inj] at h
      refine ⟨{ d with status := "destroyed", destroyed_at := some now }, ?_, rfl, rfl⟩
      rw [← h]
      exact List.find?_cons_of_pos _ (by simp [hd])
    · rw [if_neg hd] at h
      cases hx : destroyInList now depId rest with
      | none => rw [hx] at h; exact absurd h (by simp)
      | some rest' =>
        rw [hx] at h
        simp only [Option.map_some', Option.some_inj] at h
        obtain ⟨d0, hfind, hst, hda⟩ := ih rest' hx
        refine ⟨d0, ?_, hst, hda⟩
        rw [← h]
        rw [List.find?_cons_of_neg _ (by simp [hd])]
        exact hfind

/-- `get_deployment`'s scan of one provider's region dict. -/
def findInRegions (depId : String) (regions : List (String × List Deployment)) :
    Option Deployment :=
  regions.findSome? fun r => List.find? (fun d => d.id == depId) r.2

theorem findSome?_cons_some {α β : Type} (f : α → Option β) (a : α) (l : List α) (b : β)
    (h : f a = some b) : List.findSome? f (a :: l) = some b := by
  rw [List.findSome?_cons, h]

theorem findSome?_cons_of_none {α β : Type} (f : α → Option β) (a : α) (l : List α)
    (h : f a = none) : List.findSome? f (a :: l) = List.findSome? f l := by
  rw [List.findSome?_cons, h]

theorem destroyInRegions_none (now : DateTime) (depId : String) :
    ∀ regions, destroyInRegions now depId regions = none →
      findInRegions depId regions = none := by
  intro regions
  induction regions with
  | nil => intro _; rfl
  | cons r rest ih =>
    intro h
    unfold destroyInRegions at h
    cases hx : destroyInList now depId r.2 with
    | some deps' => rw [hx] at h; exact absurd h (by simp)
    | none =>
      rw [hx] at h
      unfold findInRegions
      rw [List.findSome?_cons]
      rw [destroyInList_none now depId r.2 hx]
      cases hy : destroyInRegions now depId rest with
      | none => exact ih hy
      | some rest' => rw [hy] at h; exact absurd h (by simp)

theorem destroyInRegions_some (now : DateTime) (depId : String) :
    ∀ regions regions', destroyInRegions now depId regions = some regions' →
      ∃ d0, findInRegions depId regions' = some d0 ∧
        d0.status = "destroyed" ∧ d0.destroyed_at = some now := by
  intro regions
  induction regions with
  | nil => intro regions' h; exact absurd h (by simp [destroyInRegions])
  | cons r rest ih =>
    intro regions' h
    unfold destroyInRegions at h
    cases hx : destroyInList now depId r.2 with
    | some deps' =>
      rw [hx] at h
      simp only [Option.some_inj] at h
      obtain ⟨d0, hfind, hst, hda⟩ := destroyInList_some now depId r.2 deps' hx
      refine ⟨d0, ?_, hst, hda⟩
      rw [← h]
      exact findSome?_cons_some _ _ _ _ hfind
    | none =>
      rw [hx] at h
      cases hy : destroyInRegions now depId rest with
      | none => rw [hy] at h; exact absurd h (by simp)
      | some rest' =>
        rw [hy] at h
        simp only [Option.map_some', Option.some_inj] at h
        obtain ⟨d0, hfind, hst, hda⟩ := ih rest' hy
        refine ⟨d0, ?_, hst, hda⟩
        rw [← h]
        exact (findSome?_cons_of_none
          (fun rg : String × List Deployment =>
            List.find? (fun d : Deployment => d.id == depId) rg.2) _ _
          (destroyInList_none now depId r.2 hx)).trans hfind

theorem destroyInInventory_some (now : DateTime) (depId : String) :
    ∀ inv inv', destroyInInventory now depId inv = some inv' →
      ∃ d0, getDeployment inv' depId = some d0 ∧
        d0.status = "destroyed" ∧ d0.destroyed_at = some now := by
  intro inv
  induction inv with
  | nil => intro inv' h; exact absurd h (by simp [destroyInInventory])
  | cons p rest ih =>
    intro inv' h
    unfold destroyInInventory at h
    cases hx : destroyInRegions now depId p.2 with
    | some regions' =>
      rw [hx] at h
      simp only [Option.some_inj] at h
      obtain ⟨d0, hfind, hst, hda⟩ := destroyInRegions_some now depId p.2 regions' hx
      refine ⟨d0, ?_, hst, hda⟩
      rw [← h]
      exact findSome?_cons_some _ _ _ _ hfind
    | none =>
      rw [hx] at h
      cases hy : destroyInInventory now depId rest with
      | none => rw [hy] at h; exact absurd h (by simp)
      | some rest' =>
        rw [hy] at h
        simp only [Option.map_some', Option.some_inj] at h
        obtain ⟨d0, hfind, hst, hda⟩ := ih rest' hy
        refine ⟨d0, ?_, hst, hda⟩
        rw [← h]
        exact (findSome?_cons_of_none
          (fun pp : String × List (String × List Deployment) =>
            List.findSome? (fun rg : String × List Deployment =>
              List.find? (fun d : Deployment => d.id == depId) rg.2) pp.2)
          _ _ (destroyInRegions_none now depId p.2 hx)).trans hfind

theorem releaseFirst_find (now : DateTime) (depId : String) :
    ∀ l, (List.find? (fun p => p.2.deployment_id == depId) l).isSome = true →
      ∃ p, List.find? (fun p => p.2.deployment_id == depId) (releaseFirst now depId l) =
          some p ∧ p.2.status = "released" ∧ p.2.released_at = some now := by
  intro l
  induction l with
  | nil => intro h; exact absurd h (by simp)
  | cons e rest ih =>
    intro h
    unfold releaseFirst
    by_cases hd : e.2.deployment_id = depId
    · rw [if_pos hd]
      exact ⟨(e.1, { e.2 with status := "released", released_at := some now }),
        List.find?_cons_of_pos _ (by simp [hd]), rfl, rfl⟩
    · rw [if_neg hd]
      rw [List.find?_cons_of_neg _ (by simp [hd])] at h
      obtain ⟨p, hfind, hst, hra⟩ := ih h
      refine ⟨p, ?_, hst, hra⟩
      rw [List.find?_cons_of_neg _ (by simp [hd])]
      exact hfind

theorem mem_cleanupDestroyed (cutoff : DateTime) (inv : Inventory) (d : Deployment) :
    d ∈ listAllDeployments (cleanupDestroyed cutoff inv).2 ↔
      (d ∈ listAllDeployments inv ∧ keptByCleanup cutoff d = true) := by
  unfold cleanupDestroyed listAllDeployments
  constructor
  · intro h
    obtain ⟨p', hp', hd'⟩ := List.mem_flatMap.mp h
    obtain ⟨p, hp, hsome⟩ := List.mem_filterMap.mp hp'
    by_cases hempt : (p.2.filterMap fun r =>
        let kept := r.2.filter (keptByCleanup cutoff)
        if kept.isEmpty then none else some (r.1, kept)).isEmpty
    · rw [if_pos hempt] at hsome; exact absurd hsome (by simp)
    · rw [if_neg hempt] at hsome
      simp only [Option.some_inj] at hsome
      rw [← hsome] at hd'
      obtain ⟨r', hr', hdr⟩ := List.mem_flatMap.mp hd'
      obtain ⟨r, hr, hrsome⟩ := List.mem_filterMap.mp hr'
      by_cases hre : (r.2.filter (keptByCleanup cutoff)).isEmpty
      · rw [if_pos hre] at hrsome; exact absurd hrsome (by simp)
      · rw [if_neg hre] at hrsome
        simp only [Option.some_inj] at hrsome
        rw [← hrsome] at hdr
        obtain ⟨hdmem, hkept⟩ := List.mem_filter.mp hdr
        refine ⟨List.mem_flatMap.mpr ⟨p, hp, List.mem_flatMap.mpr ⟨r, hr, hdmem⟩⟩, hkept⟩
  · rintro ⟨h, hkept⟩
    obtain ⟨p, hp, hd'⟩ := List.mem_flatMap.mp h
    obtain ⟨r, hr, hdr⟩ := List.mem_flatMap.mp hd'
    have hdk : d ∈ r.2.filter (keptByCleanup cutoff) := List.mem_filter.mpr ⟨hdr, hkept⟩
    have hrne : ¬(r.2.filter (keptByCleanup cutoff)).isEmpty := by
      cases hx : r.2.filter (keptByCleanup cutoff) with
      | nil => rw [hx] at hdk; exact absurd hdk (by simp)
      | cons a l => simp
    have hrmem : (r.1, r.2.filter (keptByCleanup cutoff)) ∈
        (p.2.filterMap fun r =>
          let kept := r.2.filter (keptByCleanup cutoff)
          if kept.isEmpty then none else some (r.1, kept)) := by
      refine List.mem_filterMap.mpr ⟨r, hr, ?_⟩
      rw [if_neg hrne]
    have hpne : ¬(p.2.filterMap fun r =>
        let kept := r.2.filter (keptByCleanup cutoff)
        if kept.isEmpty then none else some (r.1, kept)).isEmpty := by
      cases hx : (p.2.filterMap fun r =>
          let kept := r.2.filter (keptByCleanup cutoff)
          if kept.isEmpty then none else some (r.1, kept)) with
      | nil => rw [hx] at hrmem; exact absurd hrmem (by simp)
      | cons a l => simp
    refine List.mem_flatMap.mpr ⟨(p.1, _), List.mem_filterMap.mpr ⟨p, hp, ?_⟩,
      List.mem_flatMap.mpr ⟨(r.1, r.2.filter (keptByCleanup cutoff)), hrmem, hdk⟩⟩
    rw [if_neg hpne]

/-- C2: after a successful `remove_deployment(id)` the record is still
retrievable via `get_deployment(id)` with status `destroyed` and a fresh
`destroyed_at` stamp, and the deployment's IP registration (when one
exists) is marked `released`; a record is hard-deleted by
`cleanup_destroyed_deployments` exactly when its status is `destroyed` and
its `destroyed_at` (falling back to `created_at`) is strictly older than
the cutoff instant `now - max_age_days`. -/
theorem claim_C2_soft_delete_then_cleanup (st st' : TrackerState) (now : DateTime)
    (depId : String) (h : removeDeployment st now depId = some st') :
    (∃ d, getDeployment st'.inventory depId = some d ∧ d.status = "destroyed" ∧
      d.destroyed_at = some now) ∧
    ((List.find? (fun p => p.2.deployment_id == depId)
        st.ipRegistry.elastic_ips).isSome = true →
      ∃ p, List.find? (fun p => p.2.deployment_id == depId)
          st'.ipRegistry.elastic_ips = some p ∧
        p.2.status = "released" ∧ p.2.released_at = some now) ∧
    (∀ cutoff d, d ∈ listAllDeployments (cleanupDestroyed cutoff st'.inventory).2 ↔
      (d ∈ listAllDeployments st'.inventory ∧
        ¬(d.status = "destroyed" ∧
          DateTime.ltb (effectiveDestroyedAt d) cutoff = true))) := by
  unfold removeDeployment at h
  cases hx : destroyInInventory now depId st.inventory with
  | none => rw [hx] at h; exact absurd h (by simp)
  | some inv' =>
    rw [hx] at h
    simp only [Option.map_some', Option.some_inj] at h
    refine ⟨?_, ?_, ?_⟩
    · rw [← h]
      exact destroyInInventory_some now depId st.inventory inv' hx
    · intro hsome
      rw [← h]
      exact releaseFirst_find now depId st.ipRegistry.elastic_ips hsome
    · intro cutoff d
      rw [mem_cleanupDestroyed]
      have hkb : keptByCleanup cutoff d = true ↔
          ¬(d.status = "destroyed" ∧
            DateTime.ltb (effectiveDestroyedAt d) cutoff = true) := by
        unfold keptByCleanup
        constructor
        · intro hk hc
          rw [show (d.status == "destroyed") = true from beq_iff_eq.mpr hc.1, hc.2] at hk
          exact absurd hk (by simp)
        · intro hnc
          by_cases hs : d.status = "destroyed"
          · by_cases hl : DateTime.ltb (effectiveDestroyedAt d) cutoff = true
            · exact absurd ⟨hs, hl⟩ hnc
            · rw [show (d.status == "destroyed") = true from beq_iff_eq.mpr hs]
              simp only [Bool.not_eq_true] at hl
              rw [hl]
              rfl
          · rw [show (d.status == "destroyed") = false from beq_eq_false_iff_ne.mpr hs]
            rfl
      rw [hkb]

/-- A concrete active deployment for exercising the soft-delete path. -/
def witnessRecord : Deployment :=
  { id := "aws-us-east-1-abc123", provider := "aws", region := "us-east-1",
    created_at := ⟨2025, 9, 1, 12, 0, 0⟩, status := "active",
    resources := [("public_ip", .vstr "1.2.3.4")], config := [],
    tags := [("managed_by", "proxygen"), ("provider", "aws"), ("region", "us-east-1")],
    cost_estimate := ⟨0, 0, 0, "USD"⟩, clients := [],
    destroyed_at := none, last_modified := none }

/-- The tracker state holding `witnessRecord` and its IP registration. -/
def witnessState : TrackerState :=
  ⟨[("aws", [("us-east-1", [witnessRecord])])],
   ⟨[("aws-us-east-1-aws-us-east-1-abc123",
      ⟨.vstr "1.2.3.4", "aws-us-east-1-abc123", "aws", "us-east-1",
        ⟨2025, 9, 1, 12, 0, 0⟩, "active", none⟩)], []⟩⟩

/-- `witnessRecord` as `remove_deployment` leaves it at 2025-10-01
12:00:00. -/
def witnessRecordAfter : Deployment :=
  { witnessRecord with status := "destroyed", destroyed_at := some ⟨2025, 10, 1, 12, 0, 0⟩ }

/-- `witnessState` after `remove_deployment("aws-us-east-1-abc123")` at
2025-10-01 12:00:00. -/
def witnessStateAfter : TrackerState :=
  ⟨[("aws", [("us-east-1", [witnessRecordAfter])])],
   ⟨[("aws-us-east-1-aws-us-east-1-abc123",
      ⟨.vstr "1.2.3.4", "aws-us-east-1-abc123", "aws", "us-east-1",
        ⟨2025, 9, 1, 12, 0, 0⟩, "released", some ⟨2025, 10, 1, 12, 0, 0⟩⟩)], []⟩⟩

/-- C2 witness: removing the concrete deployment succeeds and all three
conclusions hold for the resulting state. -/
theorem claim_C2_witness :
    removeDeployment witnessState ⟨2025, 10, 1, 12, 0, 0⟩ "aws-us-east-1-abc123" =
        some witnessStateAfter ∧
    ((∃ d, getDeployment witnessStateAfter.inventory "aws-us-east-1-abc123" = some d ∧
        d.status = "destroyed" ∧ d.destroyed_at = some ⟨2025, 10, 1, 12, 0, 0⟩) ∧
      ((List.find? (fun p => p.2.deployment_id == "aws-us-east-1-abc123")
          witnessState.ipRegistry.elastic_ips).isSome = true →
        ∃ p, List.find? (fun p => p.2.deployment_id == "aws-us-east-1-abc123")
            witnessStateAfter.ipRegistry.elastic_ips = some p ∧
          p.2.status = "released" ∧ p.2.released_at = some ⟨2025, 10, 1, 12, 0, 0⟩) ∧
      (∀ cutoff d,
        d ∈ listAllDeployments (cleanupDestroyed cutoff witnessStateAfter.inventory).2 ↔
          (d ∈ listAllDeployments witnessStateAfter.inventory ∧
            ¬(d.status = "destroyed" ∧
              DateTime.ltb (effectiveDestroyedAt d) cutoff = true)))) :=
  ⟨by decide, claim_C2_soft_delete_then_cleanup witnessState witnessStateAfter
    ⟨2025, 10, 1, 12, 0, 0⟩ "aws-us-east-1-abc123" (by decide)⟩

/-! ### C9: bandwidth monotonicity of the cost model -/

theorem roundHalfEven_bounds (q : ℚ) :
    (⌊q⌋ : ℤ) ≤ roundHalfEven q ∧ roundHalfEven q ≤ ⌊q⌋ + 1 := by
  unfold roundHalfEven
  split_ifs <;> omega

theorem roundHalfEven_mono {x y : ℚ} (h : x ≤ y) :
    roundHalfEven x ≤ roundHalfEven y := by
  have hfx : (⌊x⌋ : ℤ) ≤ ⌊y⌋ := Int.floor_mono h
  rcases lt_or_eq_of_le hfx with hlt | heq
  · have hx2 := roundHalfEven_bounds x
    have hy2 := roundHalfEven_bounds y
    omega
  · have hfl : (⌊x⌋ : ℚ) ≤ x := Int.floor_le x
    have hr : x - (⌊x⌋ : ℚ) ≤ y - (⌊x⌋ : ℚ) := by linarith
    unfold roundHalfEven
    rw [← heq]
    split_ifs <;> first | omega | (exfalso; linarith)

theorem roundq2_mono {x y : ℚ} (h : x ≤ y) : roundq2 x ≤ roundq2 y := by
  unfold roundq2
  have h100 : x * 100 ≤ y * 100 := by linarith
  have hmono := roundHalfEven_mono h100
  have hcast : ((roundHalfEven (x * 100) : ℤ) : ℚ) ≤ ((roundHalfEven (y * 100) : ℤ) : ℚ) := by
    exact_mod_cast hmono
  gcongr

theorem calcBw_100_le_200 (provider : String)
    (hp : provider ∈ (["aws", "azure", "digitalocean", "hetzner"] : List String)) :
    calculateBandwidthCost provider 100 ≤ calculateBandwidthCost provider 200 := by
  simp only [List.mem_cons, List.not_mem_nil, or_false] at hp
  rcases hp with rfl | rfl | rfl | rfl
  · rw [show calculateBandwidthCost "aws" 100 = 100 * 0.09 from rfl,
      show calculateBandwidthCost "aws" 200 = 200 * 0.09 from rfl]
    norm_num
  · rw [show calculateBandwidthCost "azure" 100 = (100 - 5) * 0.087 from rfl,
      show calculateBandwidthCost "azure" 200 = (200 - 5) * 0.087 from rfl]
    norm_num
  · rw [show calculateBandwidthCost "digitalocean" 100 = 0 from rfl,
      show calculateBandwidthCost "digitalocean" 200 = 0 from rfl]
  · rw [show calculateBandwidthCost "hetzner" 100 = 0 from rfl,
      show calculateBandwidthCost "hetzner" 200 = 0 from rfl]

/-- C9: for each provider in the fixed set, with instance type, region,
storage, and hours held fixed, the estimated `total_monthly` at
200 GB of bandwidth is at least the estimate at 100 GB. -/
theorem claim_C9_bandwidth_monotonicity (provider : String)
    (hp : provider ∈ (["aws", "azure", "digitalocean", "hetzner"] : List String))
    (instanceType region : String) (storageGb hours : ℚ) (m1 m2 : ℚ)
    (h1 : (estimateMonthlyCost provider instanceType region 100 storageGb hours).map
      MonthlyEstimate.total_monthly = some m1)
    (h2 : (estimateMonthlyCost provider instanceType region 200 storageGb hours).map
      MonthlyEstimate.total_monthly = some m2) :
    m1 ≤ m2 := by
  unfold estimateMonthlyCost at h1 h2
  cases hI : ceInstances provider with
  | none => rw [hI] at h1; exact absurd h1 (by simp)
  | some table =>
    rw [hI] at h1 h2
    dsimp only at h1 h2
    cases hL : List.lookup instanceType table with
    | none => rw [hL] at h1; exact absurd h1 (by simp)
    | some price =>
      rw [hL] at h1 h2
      simp only [Option.map_some', Option.some_inj] at h1 h2
      rw [← h1, ← h2]
      apply roundq2_mono
      have := calcBw_100_le_200 provider hp
      linarith

/-- C9 witness: AWS t3.micro in us-east-1, 20 GB storage, 730 hours:
21.84 at 100 GB versus 30.84 at 200 GB. -/
theorem claim_C9_witness :
    "aws" ∈ (["aws", "azure", "digitalocean", "hetzner"] : List String) ∧
    (estimateMonthlyCost "aws" "t3.micro" "us-east-1" 100 20 730).map
      MonthlyEstimate.total_monthly = some 21.84 ∧
    (estimateMonthlyCost "aws" "t3.micro" "us-east-1" 200 20 730).map
      MonthlyEstimate.total_monthly = some 30.84 ∧
    (21.84 : ℚ) ≤ 30.84 := by
  have e1 : (estimateMonthlyCost "aws" "t3.micro" "us-east-1" 100 20 730).map
      MonthlyEstimate.total_monthly =
      some (roundq2 (0.0104 * 1.0 * 730 + 0.005 * 730 + 100 * 0.09 + 0.08 * 20)) := rfl
  have e2 : (estimateMonthlyCost "aws" "t3.micro" "us-east-1" 200 20 730).map
      MonthlyEstimate.total_monthly =
      some (roundq2 (0.0104 * 1.0 * 730 + 0.005 * 730 + 200 * 0.09 + 0.08 * 20)) := rfl
  have v1 : roundq2 ((0.0104 : ℚ) * 1.0 * 730 + 0.005 * 730 + 100 * 0.09 + 0.08 * 20) =
      21.84 := by
    norm_num [roundq2, roundHalfEven]
  have v2 : roundq2 ((0.0104 : ℚ) * 1.0 * 730 + 0.005 * 730 + 200 * 0.09 + 0.08 * 20) =
      30.84 := by
    norm_num [roundq2, roundHalfEven]
  have f1 := e1.trans (congrArg some v1)
  have f2 := e2.trans (congrArg some v2)
  exact ⟨by decide, f1, f2,
    claim_C9_bandwidth_monotonicity "aws" (by decide) "t3.micro" "us-east-1" 20 730
      21.84 30.84 f1 f2⟩

/-! ### C5: fail-fast multi-region deploy -/

theorem estimateCost_isSome (p : String) (res : PyDict) (cfg : Option PyDict)
    (h : ((PyDict.getD res "storage_gb" (.vnum 20)).toNum).isSome = true) :
    (estimateCost p res cfg).isSome = true := by
  unfold estimateCost
  cases hx : (PyDict.getD res "storage_gb" (.vnum 20)).toNum with
  | none => rw [hx] at h; exact absurd h (by simp)
  | some s => rfl

/-- What a successful `add_deployment` call returns and appends. -/
theorem addDeployment_elim (st : TrackerState) (now : DateTime) (did p r : String)
    (res : PyDict) (cfg : Option PyDict) (q : String × TrackerState)
    (h : addDeployment st now did p r res cfg = some q) :
    ∃ cost, estimateCost p res cfg = some cost ∧
      q.1 = (if did = "" then p ++ "-" ++ r ++ "-" ++ fmtTimestamp now else did) ∧
      q.2.inventory = insertDeployment p r
        { id := q.1, provider := p, region := r, created_at := now, status := "active",
          resources := res, config := cfg.getD [],
          tags := [("managed_by", "proxygen"), ("provider", p), ("region", r)],
          cost_estimate := cost, clients := [], destroyed_at := none,
          last_modified := none } st.inventory := by
  unfold addDeployment at h
  cases hc : estimateCost p res cfg with
  | none => rw [hc] at h; exact absurd h (by simp)
  | some cost =>
    rw [hc] at h
    have hpair := Option.some.inj h
    refine ⟨cost, rfl, ?_, ?_⟩
    · rw [← hpair]
    · rw [← hpair]

/-- The record a successful `add_deployment` appends, by its properties. -/
theorem addDeployment_props (st : TrackerState) (now : DateTime) (did p r : String)
    (res : PyDict) (cfg : Option PyDict) (q : String × TrackerState)
    (h : addDeployment st now did p r res cfg = some q) :
    ∃ rec, q.2.inventory = insertDeployment p r rec st.inventory ∧
      rec.id = q.1 ∧ rec.provider = p ∧ rec.region = r ∧ rec.status = "active" ∧
      rec.resources = res := by
  obtain ⟨cost, hc, hid, hinv⟩ := addDeployment_elim st now did p r res cfg q h
  exact ⟨_, hinv, rfl, rfl, rfl, rfl, rfl⟩

/-- C5: in a non-dry-run deploy over two or more regions in which region 1
fully succeeds and the Terraform apply for region 2 fails, the call
reports failure, exactly regions 1 and 2 get an apply attempt (fail-fast:
no later region is touched), and region 1's deployment stays in the ledger
with status `active` -- it is not rolled back. -/
theorem claim_C5_fail_fast_keeps_region1 (env : DeployEnv) (st : TrackerState)
    (provider r1 r2 : String) (rest : List String) (instanceType : Option String)
    (si1 : PyDict)
    (hprov : provider ∈ (["aws", "azure", "digitalocean", "hetzner"] : List String))
    (hconf : env.confirm = true)
    (hvalid : (r1 :: r2 :: rest).all (fun r => (env.validRegions provider).contains r) = true)
    (hap1 : env.applyOk r1 = true)
    (hsi : env.serverInfo r1 = some si1)
    (hsine : si1.isEmpty = false)
    (hstor : ((PyDict.getD si1 "storage_gb" (.vnum 20)).toNum).isSome = true)
    (hcfg : env.configureOk r1 = true)
    (hap2 : env.applyOk r2 = false) :
    (deployRun env st provider (r1 :: r2 :: rest) false instanceType).success = false ∧
    (deployRun env st provider (r1 :: r2 :: rest) false instanceType).attempted = [r1, r2] ∧
    ∃ d ∈ getDeploymentsByRegion
        (deployRun env st provider (r1 :: r2 :: rest) false instanceType).state.inventory
        provider r1,
      d.id = provider ++ "-" ++ r1 ++ "-" ++ fmtTimestamp (env.times 0) ∧
      d.status = "active" ∧ d.provider = provider ∧ d.region = r1 := by
  have hrun : deployRun env st provider (r1 :: r2 :: rest) false instanceType =
      deployLoop env provider (instanceType.getD (defaultInstanceType provider)) false
        st 0 [] [] (r1 :: r2 :: rest) := by
    unfold deployRun
    rw [if_neg (by simp only [not_not]; exact hprov)]
    rw [if_neg (by rw [hconf]; simp)]
    rw [if_neg (by
      intro hcon
      rw [List.any_eq_true] at hcon
      obtain ⟨x, hx, hpx⟩ := hcon
      rw [List.all_eq_true] at hvalid
      rw [hvalid x hx] at hpx
      exact absurd hpx (by simp))]
  have haddsome : (addDeployment st (env.times 0)
      (provider ++ "-" ++ r1 ++ "-" ++ fmtTimestamp (env.times 0)) provider r1 si1
      (some [("instance_type", .vstr (instanceType.getD (defaultInstanceType provider))),
        ("wireguard_port", env.wireguardPort), ("subnet", env.subnetCfg)])).isSome = true := by
    unfold addDeployment
    cases hc : estimateCost provider si1
      (some [("instance_type", .vstr (instanceType.getD (defaultInstanceType provider))),
        ("wireguard_port", env.wireguardPort), ("subnet", env.subnetCfg)]) with
    | none =>
      have := estimateCost_isSome provider si1
        (some [("instance_type", .vstr (instanceType.getD (defaultInstanceType provider))),
          ("wireguard_port", env.wireguardPort), ("subnet", env.subnetCfg)]) hstor
      rw [hc] at this
      exact absurd this (by simp)
    | some cost => rfl
  obtain ⟨q, hq⟩ := Option.isSome_iff_exists.mp haddsome
  obtain ⟨qid, qst⟩ := q
  have hstep : deployLoop env provider (instanceType.getD (defaultInstanceType provider))
      false st 0 [] [] (r1 :: r2 :: rest) = ⟨false, qst, [r1, r2], [(0, r1, qid)]⟩ := by
    simp only [deployLoop, hap1, hsi, hsine, hcfg, hq, hap2, Bool.not_true, Bool.not_false,
      Bool.true_and, Bool.false_eq_true, if_false, if_true, List.nil_append,
      List.singleton_append]
  obtain ⟨cost, hcost, hqid, -⟩ := addDeployment_elim st (env.times 0)
    (provider ++ "-" ++ r1 ++ "-" ++ fmtTimestamp (env.times 0)) provider r1 si1
    (some [("instance_type", .vstr (instanceType.getD (defaultInstanceType provider))),
      ("wireguard_port", env.wireguardPort), ("subnet", env.subnetCfg)]) (qid, qst) hq
  obtain ⟨rec, hinv, hrid, hrprov, hrreg, hrstat, -⟩ := addDeployment_props st (env.times 0)
    (provider ++ "-" ++ r1 ++ "-" ++ fmtTimestamp (env.times 0)) provider r1 si1
    (some [("instance_type", .vstr (instanceType.getD (defaultInstanceType provider))),
      ("wireguard_port", env.wireguardPort), ("subnet", env.subnetCfg)]) (qid, qst) hq
  have hidne : provider ++ "-" ++ r1 ++ "-" ++ fmtTimestamp (env.times 0) ≠ "" := by
    intro hcon
    have h2 := congrArg String.data hcon
    simp only [String.data_append] at h2
    exact absurd h2 (by simp)
  rw [if_neg hidne] at hqid
  dsimp only at hqid hinv hrid
  rw [hrun, hstep]
  refine ⟨rfl, rfl, ?_⟩
  dsimp only
  refine ⟨rec, ?_, ?_, hrstat, hrprov, hrreg⟩
  · rw [hinv, getDBR_insert, if_pos ⟨rfl, rfl⟩]
    exact List.mem_append_right _ (List.mem_singleton.mpr rfl)
  · rw [hrid]
    exact hqid

/-- Oracles for a concrete deploy run: region `us-east-1` succeeds fully,
any other region fails its Terraform apply. -/
def witnessEnv : DeployEnv :=
  { validRegions := fun p => if p = "aws" then ["us-east-1", "us-west-2", "eu-west-1"] else [],
    confirm := true,
    applyOk := fun r => r == "us-east-1",
    serverInfo := fun _ => some [("public_ip", .vstr "1.2.3.4"),
      ("private_key_path", .vstr "/keys/k.pem"), ("instance_id", .vstr "i-0abc")],
    configureOk := fun _ => true,
    times := fun _ => ⟨2025, 10, 12, 14, 30, 5⟩,
    wireguardPort := .vnum 51820,
    subnetCfg := .vstr "10.0.0.0/24" }

/-- The `get_terraform_output` dict `witnessEnv` serves. -/
def witnessServerInfo : PyDict :=
  [("public_ip", .vstr "1.2.3.4"), ("private_key_path", .vstr "/keys/k.pem"),
   ("instance_id", .vstr "i-0abc")]

/-- C5 witness: deploying aws to `[us-east-1, us-west-2]` where the second
apply fails. -/
theorem claim_C5_witness :
    ("aws" ∈ (["aws", "azure", "digitalocean", "hetzner"] : List String)) ∧
    witnessEnv.confirm = true ∧
    (["us-east-1", "us-west-2"].all
      (fun r => (witnessEnv.validRegions "aws").contains r)) = true ∧
    witnessEnv.applyOk "us-east-1" = true ∧
    witnessEnv.serverInfo "us-east-1" = some witnessServerInfo ∧
    witnessServerInfo.isEmpty = false ∧
    ((PyDict.getD witnessServerInfo "storage_gb" (.vnum 20)).toNum).isSome = true ∧
    witnessEnv.configureOk "us-east-1" = true ∧
    witnessEnv.applyOk "us-west-2" = false ∧
    ((deployRun witnessEnv emptyState "aws" ["us-east-1", "us-west-2"] false none).success
        = false ∧
      (deployRun witnessEnv emptyState "aws" ["us-east-1", "us-west-2"] false
        none).attempted = ["us-east-1", "us-west-2"] ∧
      ∃ d ∈ getDeploymentsByRegion
          (deployRun witnessEnv emptyState "aws" ["us-east-1", "us-west-2"] false
            none).state.inventory "aws" "us-east-1",
        d.id = "aws" ++ "-" ++ "us-east-1" ++ "-" ++ fmtTimestamp (witnessEnv.times 0) ∧
        d.status = "active" ∧ d.provider = "aws" ∧ d.region = "us-east-1") :=
  ⟨by decide, by decide, by decide, by decide, by decide, by decide, by decide, by decide,
    by decide,
    claim_C5_fail_fast_keeps_region1 witnessEnv emptyState "aws" "us-east-1" "us-west-2"
      [] none witnessServerInfo (by decide) (by decide) (by decide) (by decide) (by decide)
      (by decide) (by decide) (by decide) (by decide)⟩

/-! ### C7: the ids the deploy flow records -/

/-- A 6-character lowercase-hex token, as `secrets.token_hex(3)` yields and
the naming patterns (`[a-f0-9]{6}`) expect. -/
def isHexUid6 (s : String) : Prop :=
  s.data.length = 6 ∧ ∀ c ∈ s.data, (c.isDigit ∨ ('a' ≤ c ∧ c ≤ 'f'))

/-- C7 counterexample: a fully successful single-region deploy records the
ledger id `aws-us-east-1-20251012-143005`, whose suffix after the
provider/region prefix is the 15-character wall-clock timestamp -- not a
6-hex-character uid (the `secrets.token_hex(3)` uid names only the state
file). -/
theorem claim_C7_counterexample :
    (deployRun witnessEnv emptyState "aws" ["us-east-1"] false none).recorded =
      [(0, "us-east-1", "aws-us-east-1-20251012-143005")] ∧
    ¬ ∃ uid, "aws-us-east-1-20251012-143005" =
        "aws" ++ "-" ++ "us-east-1" ++ "-" ++ uid ∧ isHexUid6 uid := by
  constructor
  · decide
  · rintro ⟨uid, hequ, hlen, -⟩
    have h4 : ("aws-us-east-1-" : String) ++ "20251012-143005" = "aws-us-east-1-" ++ uid :=
      (show ("aws-us-east-1-20251012-143005" : String) =
        "aws-us-east-1-" ++ "20251012-143005" by decide).symm.trans hequ
    have h5 := String.append_cancel_left h4
    rw [← h5] at hlen
    exact absurd hlen (by decide)

/-- For every region the per-region loop finalizes, the recorded id is the
provider/region prefix plus the finalize-time wall clock. -/
theorem deployLoop_recorded (env : DeployEnv) (provider itype : String) (dryRun : Bool) :
    ∀ regions st i attempted recorded,
      ∀ e ∈ (deployLoop env provider itype dryRun st i attempted recorded regions).recorded,
        e ∈ recorded ∨
        ∃ j r', e = (j, r', provider ++ "-" ++ r' ++ "-" ++ fmtTimestamp (env.times j)) := by
  intro regions
  induction regions with
  | nil => intro st i att rec e he; exact Or.inl he
  | cons r rs ih =>
    intro st i att rec e he
    cases hap : env.applyOk r with
    | false =>
      simp only [deployLoop, hap, Bool.not_false, if_true] at he
      exact Or.inl he
    | true =>
      cases hsi : env.serverInfo r with
      | none =>
        simp only [deployLoop, hap, hsi, Bool.not_true, Bool.false_eq_true, if_false] at he
        exact Or.inl he
      | some si =>
        cases hgo : (!dryRun && !List.isEmpty si) with
        | false =>
          simp only [deployLoop, hap, hsi, hgo, Bool.not_true, Bool.false_eq_true,
            if_false] at he
          exact ih st (i + 1) (att ++ [r]) rec e he
        | true =>
          cases hcfg : env.configureOk r with
          | false =>
            simp only [deployLoop, hap, hsi, hgo, hcfg, Bool.not_true, Bool.not_false,
              Bool.false_eq_true, if_false, if_true] at he
            exact Or.inl he
          | true =>
            cases hadd : addDeployment st (env.times i)
                (provider ++ "-" ++ r ++ "-" ++ fmtTimestamp (env.times i)) provider r si
                (some [("instance_type", PyVal.vstr itype),
                  ("wireguard_port", env.wireguardPort), ("subnet", env.subnetCfg)]) with
            | none =>
              simp only [deployLoop, hap, hsi, hgo, hcfg, hadd, Bool.not_true,
                Bool.false_eq_true, if_false, if_true] at he
              exact Or.inl he
            | some q =>
              obtain ⟨qid, qst⟩ := q
              simp only [deployLoop, hap, hsi, hgo, hcfg, hadd, Bool.not_true,
                Bool.false_eq_true, if_false, if_true] at he
              rcases ih qst (i + 1) (att ++ [r]) (rec ++ [(i, r, qid)]) e he with hin | hnew
              · rcases List.mem_append.mp hin with hl | hr
                · exact Or.inl hl
                · obtain ⟨cost, hc, hqid, -⟩ := addDeployment_elim st (env.times i)
                    (provider ++ "-" ++ r ++ "-" ++ fmtTimestamp (env.times i)) provider r
                    si (some [("instance_type", PyVal.vstr itype),
                      ("wireguard_port", env.wireguardPort), ("subnet", env.subnetCfg)])
                    (qid, qst) hadd
                  have hidne : provider ++ "-" ++ r ++ "-" ++ fmtTimestamp (env.times i)
                      ≠ "" := by
                    intro hcon
                    have h2 := congrArg String.data hcon
                    simp only [String.data_append] at h2
                    exact absurd h2 (by simp)
                  rw [if_neg hidne] at hqid
                  dsimp only at hqid
                  refine Or.inr ⟨i, r, ?_⟩
                  rw [List.mem_singleton.mp hr, hqid]
              · exact Or.inr hnew

/-- C7 amended: every ledger id the deploy flow records has the format
`{provider}-{region}-{ts}` where `ts` is the finalize-time wall clock
rendered `%Y%m%d-%H%M%S` (eight digits, a dash, six digits) -- not a
random 6-hex-character token, and unique only insofar as the per-second
timestamps differ. -/
theorem claim_C7_amended_recorded_id_format (env : DeployEnv) (st : TrackerState)
    (provider : String) (regions : List String) (instanceType : Option String)
    (hts : ∀ i, (env.times i).valid) :
    ∀ e ∈ (deployRun env st provider regions false instanceType).recorded,
      ∃ ts, e.2.2 = provider ++ "-" ++ e.2.1 ++ "-" ++ ts ∧ tsShape ts := by
  intro e he
  unfold deployRun at he
  by_cases h1 : provider ∉ (["aws", "azure", "digitalocean", "hetzner"] : List String)
  · rw [if_pos h1] at he; exact absurd he (by simp)
  · rw [if_neg h1] at he
    by_cases h2 : (provider = "hetzner" ∨ provider = "digitalocean") ∧ !env.confirm
    · rw [if_pos h2] at he; exact absurd he (by simp)
    · rw [if_neg h2] at he
      by_cases h3 : regions.any (fun r => !(env.validRegions provider).contains r) = true
      · rw [if_pos h3] at he; exact absurd he (by simp)
      · rw [if_neg h3] at he
        rcases deployLoop_recorded env provider
            (instanceType.getD (defaultInstanceType provider)) false regions st 0 [] [] e
            he with hin | hnew
        · exact absurd hin (by simp)
        · obtain ⟨j, r', hej⟩ := hnew
          subst hej
          exact ⟨fmtTimestamp (env.times j), rfl, fmtTimestamp_tsShape (env.times j) (hts j)⟩

/-- C7 amended, witness: the id recorded by the concrete successful run has
the timestamp shape. -/
theorem claim_C7_amended_witness :
    (∀ i, (witnessEnv.times i).valid) ∧
    (0, "us-east-1", "aws-us-east-1-20251012-143005") ∈
      (deployRun witnessEnv emptyState "aws" ["us-east-1"] false none).recorded ∧
    ∃ ts, ("aws-us-east-1-20251012-143005" : String) =
        "aws" ++ "-" ++ "us-east-1" ++ "-" ++ ts ∧ tsShape ts :=
  ⟨fun _ => (show DateTime.valid ⟨2025, 10, 12, 14, 30, 5⟩ by decide), by decide,
    claim_C7_amended_recorded_id_format witnessEnv emptyState "aws" ["us-east-1"] none
      (fun _ => (show DateTime.valid ⟨2025, 10, 12, 14, 30, 5⟩ by decide))
      (0, "us-east-1", "aws-us-east-1-20251012-143005") (by decide)⟩

/-! ### C4: idempotent import of discovered resources -/

/-- The fields discovery always populates for its provider, whose raising
accesses (`deployment["..."]`) the importer performs. -/
def requiredFields (gp : String) (d : DiscoveredResource) : Prop :=
  (gp = "aws" → d.instance_id.isSome = true) ∧
  (gp = "azure" → d.vm_name.isSome = true ∧ d.resource_group.isSome = true) ∧
  (gp = "digitalocean" ∨ gp = "hetzner" →
    d.instance_name.isSome = true ∧ d.instance_id.isSome = true)

instance (gp : String) (d : DiscoveredResource) : Decidable (requiredFields gp d) := by
  unfold requiredFields; infer_instance

/-- Some entry of the resource's provider/region bucket matches its natural
key (the importer's `exists` condition). -/
def anyMatch (st : TrackerState) (gp : String) (d : DiscoveredResource) : Bool :=
  (getDeploymentsByRegion st.inventory d.provider d.region).any
    (fun e => matchesNaturalKey gp e d)

theorem discoveredResourceDict_isOk (gp : String) (d : DiscoveredResource)
    (hreq : requiredFields gp d) : ∃ rd, discoveredResourceDict gp d = .ok rd := by
  obtain ⟨h1, h2, h3⟩ := hreq
  unfold discoveredResourceDict
  by_cases hgp1 : gp = "aws"
  · rw [if_pos hgp1]
    obtain ⟨v, hv⟩ := Option.isSome_iff_exists.mp (h1 hgp1)
    rw [hv]
    exact ⟨_, rfl⟩
  · rw [if_neg hgp1]
    by_cases hgp2 : gp = "azure"
    · rw [if_pos hgp2]
      obtain ⟨hvm, hrg⟩ := h2 hgp2
      obtain ⟨v, hv⟩ := Option.isSome_iff_exists.mp hvm
      obtain ⟨rg, hrgv⟩ := Option.isSome_iff_exists.mp hrg
      rw [hv, hrgv]
      exact ⟨_, rfl⟩
    · rw [if_neg hgp2]
      by_cases hgp3 : gp = "digitalocean" ∨ gp = "hetzner"
      · rw [if_pos hgp3]
        obtain ⟨hin, hii⟩ := h3 hgp3
        obtain ⟨nm, hnm⟩ := Option.isSome_iff_exists.mp hin
        obtain ⟨iid, hiid⟩ := Option.isSome_iff_exists.mp hii
        rw [hnm, hiid]
        exact ⟨_, rfl⟩
      · rw [if_neg hgp3]
        exact ⟨_, rfl⟩

theorem discoveredResourceDict_no_storage (gp : String) (d : DiscoveredResource)
    (rd : PyDict) (h : discoveredResourceDict gp d = .ok rd) :
    PyDict.get rd "storage_gb" = none := by
  unfold discoveredResourceDict at h
  by_cases hgp1 : gp = "aws"
  · rw [if_pos hgp1] at h
    cases hv : d.instance_id with
    | none => rw [hv] at h; exact absurd h (by simp)
    | some v =>
      rw [hv] at h
      rw [← Except.ok.inj h]
      rfl
  · rw [if_neg hgp1] at h
    by_cases hgp2 : gp = "azure"
    · rw [if_pos hgp2] at h
      cases hv : d.vm_name with
      | none => rw [hv] at h; exact absurd h (by simp)
      | some v =>
        cases hrg : d.resource_group with
        | none => rw [hv, hrg] at h; exact absurd h (by simp)
        | some rg =>
          rw [hv, hrg] at h
          rw [← Except.ok.inj h]
          rfl
    · rw [if_neg hgp2] at h
      by_cases hgp3 : gp = "digitalocean" ∨ gp = "hetzner"
      · rw [if_pos hgp3] at h
        cases hnm : d.instance_name with
        | none => rw [hnm] at h; exact absurd h (by simp)
        | some nm =>
          cases hiid : d.instance_id with
          | none => rw [hnm, hiid] at h; exact absurd h (by simp)
          | some iid =>
            rw [hnm, hiid] at h
            rw [← Except.ok.inj h]
            rfl
      · rw [if_neg hgp3] at h
        rw [← Except.ok.inj h]
        rfl

theorem discoveredResourceDict_key (gp : String) (d : DiscoveredResource) (rd : PyDict)
    (h : discoveredResourceDict gp d = .ok rd) :
    (gp = "aws" → PyDict.getD rd "instance_id" .vnone = optPy d.instance_id) ∧
    (gp = "azure" → PyDict.getD rd "vm_name" .vnone = optPy d.vm_name) ∧
    ((gp = "digitalocean" ∨ gp = "hetzner") →
      PyDict.getD rd "instance_name" .vnone = optPy d.instance_name) := by
  unfold discoveredResourceDict at h
  by_cases hgp1 : gp = "aws"
  · rw [if_pos hgp1] at h
    cases hv : d.instance_id with
    | none => rw [hv] at h; exact absurd h (by simp)
    | some v =>
      rw [hv] at h
      rw [← Except.ok.inj h]
      refine ⟨fun _ => ?_, fun hc => absurd (hgp1 ▸ hc) (by decide), fun hc => ?_⟩
      · rfl
      · rcases hc with hc | hc <;> exact absurd (hgp1 ▸ hc) (by decide)
  · rw [if_neg hgp1] at h
    by_cases hgp2 : gp = "azure"
    · rw [if_pos hgp2] at h
      cases hv : d.vm_name with
      | none => rw [hv] at h; exact absurd h (by simp)
      | some v =>
        cases hrg : d.resource_group with
        | none => rw [hv, hrg] at h; exact absurd h (by simp)
        | some rg =>
          rw [hv, hrg] at h
          rw [← Except.ok.inj h]
          refine ⟨fun hc => absurd (hgp2 ▸ hc) (by decide), fun _ => ?_, fun hc => ?_⟩
          · rfl
          · rcases hc with hc | hc <;> exact absurd (hgp2 ▸ hc) (by decide)
    · rw [if_neg hgp2] at h
      by_cases hgp3 : gp = "digitalocean" ∨ gp = "hetzner"
      · rw [if_pos hgp3] at h
        cases hnm : d.instance_name with
        | none => rw [hnm] at h; exact absurd h (by simp)
        | some nm =>
          cases hiid : d.instance_id with
          | none => rw [hnm, hiid] at h; exact absurd h (by simp)
          | some iid =>
            rw [hnm, hiid] at h
            rw [← Except.ok.inj h]
            refine ⟨fun hc => absurd hc hgp1, fun hc => absurd hc hgp2, fun _ => ?_⟩
            rfl
      · exact ⟨fun hc => absurd hc hgp1, fun hc => absurd hc hgp2,
          fun hc => absurd hc hgp3⟩

theorem importStep_skip (st : TrackerState) (now : DateTime) (gp : String)
    (d : DiscoveredResource) (hex : anyMatch st gp d = true) :
    importStep st now gp d = .ok (false, st) := by
  unfold anyMatch at hex
  simp only [importStep]
  rw [if_pos hex]

theorem importStep_add (st : TrackerState) (now : DateTime) (gp : String)
    (d : DiscoveredResource) (hex : anyMatch st gp d = false) (rd : PyDict)
    (hrd : discoveredResourceDict gp d = .ok rd) :
    importStep st now gp d =
      (match addDeployment st now (generateDeploymentId d) d.provider d.region rd
          (some [("instance_type", optPy d.instance_type),
                 ("deployment_uid", optPy d.deployment_uid)]) with
        | none => .error ()
        | some (_, st') => .ok (true, st')) := by
  unfold anyMatch at hex
  simp only [importStep]
  rw [if_neg (by simp [hex]), hrd]

theorem addDeployment_isSome (st : TrackerState) (now : DateTime) (did p r : String)
    (res : PyDict) (cfg : Option PyDict)
    (h : (estimateCost p res cfg).isSome = true) :
    (addDeployment st now did p r res cfg).isSome = true := by
  unfold addDeployment
  cases hc : estimateCost p res cfg with
  | none => rw [hc] at h; exact absurd h (by simp)
  | some cost => rfl

theorem importStep_isOk (st : TrackerState) (now : DateTime) (gp : String)
    (d : DiscoveredResource) (hreq : requiredFields gp d) :
    ∃ added st', importStep st now gp d = .ok (added, st') := by
  by_cases hex : anyMatch st gp d = true
  · exact ⟨false, st, importStep_skip st now gp d hex⟩
  · have hexf : anyMatch st gp d = false := by
      revert hex; cases anyMatch st gp d <;> simp
    obtain ⟨rd, hrd⟩ := discoveredResourceDict_isOk gp d hreq
    have hstor : ((PyDict.getD rd "storage_gb" (.vnum 20)).toNum).isSome = true := by
      unfold PyDict.getD
      rw [discoveredResourceDict_no_storage gp d rd hrd]
      rfl
    have hadd := addDeployment_isSome st now (generateDeploymentId d) d.provider d.region
      rd (some [("instance_type", optPy d.instance_type),
                ("deployment_uid", optPy d.deployment_uid)])
      (estimateCost_isSome d.provider rd _ hstor)
    obtain ⟨q, hq⟩ := Option.isSome_iff_exists.mp hadd
    obtain ⟨qid, qst⟩ := q
    rw [importStep_add st now gp d hexf rd hrd, hq]
    exact ⟨true, qst, rfl⟩

theorem importStep_ok_cases (st : TrackerState) (now : DateTime) (gp : String)
    (d : DiscoveredResource) (added : Bool) (st' : TrackerState)
    (h : importStep st now gp d = .ok (added, st')) :
    (added = false ∧ st' = st ∧ anyMatch st gp d = true) ∨
    (added = true ∧ anyMatch st gp d = false ∧
      ∃ rd q, discoveredResourceDict gp d = .ok rd ∧
        addDeployment st now (generateDeploymentId d) d.provider d.region rd
          (some [("instance_type", optPy d.instance_type),
                 ("deployment_uid", optPy d.deployment_uid)]) = some q ∧
        st' = q.2) := by
  by_cases hex : anyMatch st gp d = true
  · rw [importStep_skip st now gp d hex] at h
    have hp := Prod.mk.inj (Except.ok.inj h)
    exact Or.inl ⟨hp.1.symm, hp.2.symm, hex⟩
  · have hexf : anyMatch st gp d = false := by
      revert hex; cases anyMatch st gp d <;> simp
    have hexf' := hexf
    unfold anyMatch at hexf'
    cases hrd : discoveredResourceDict gp d with
    | error e =>
      have hstep : importStep st now gp d = .error e := by
        simp only [importStep]
        rw [if_neg (by simp [hexf']), hrd]
      rw [hstep] at h
      exact absurd h (by simp)
    | ok rd =>
      rw [importStep_add st now gp d hexf rd hrd] at h
      cases hadd : addDeployment st now (generateDeploymentId d) d.provider d.region rd
          (some [("instance_type", optPy d.instance_type),
                 ("deployment_uid", optPy d.deployment_uid)]) with
      | none => rw [hadd] at h; exact absurd h (by simp)
      | some q =>
        obtain ⟨qid, qst⟩ := q
        rw [hadd] at h
        have hp := Prod.mk.inj (Except.ok.inj h)
        exact Or.inr ⟨hp.1.symm, hexf, rd, (qid, qst), rfl, hadd, hp.2.symm⟩

theorem importStep_found (st : TrackerState) (now : DateTime) (gp : String)
    (d : DiscoveredResource) (added : Bool) (st' : TrackerState)
    (hgp : gp ∈ (["aws", "azure", "digitalocean", "hetzner"] : List String))
    (h : importStep st now gp d = .ok (added, st')) :
    anyMatch st' gp d = true := by
  rcases importStep_ok_cases st now gp d added st' h with
    ⟨-, hst, hany⟩ | ⟨-, -, rd, q, hrd, hadd, hst⟩
  · subst hst; exact hany
  · subst hst
    obtain ⟨rec, hinv, hid, hprov, hreg, hstat, hres⟩ :=
      addDeployment_props st now (generateDeploymentId d) d.provider d.region rd
        (some [("instance_type", optPy d.instance_type),
               ("deployment_uid", optPy d.deployment_uid)]) q hadd
    unfold anyMatch
    rw [hinv, getDBR_insert, if_pos ⟨rfl, rfl⟩, List.any_append]
    suffices hm : matchesNaturalKey gp rec d = true by simp [hm]
    obtain ⟨hkey1, hkey2, hkey3⟩ := discoveredResourceDict_key gp d rd hrd
    simp only [List.mem_cons, List.not_mem_nil, or_false] at hgp
    rcases hgp with h1 | h1 | h1 | h1
    · subst h1
      unfold matchesNaturalKey
      rw [if_pos rfl, hres, hkey1 rfl]
      exact beq_self_eq_true _
    · subst h1
      unfold matchesNaturalKey
      rw [if_neg (by decide), if_pos rfl, hres, hkey2 rfl]
      exact beq_self_eq_true _
    · subst h1
      unfold matchesNaturalKey
      rw [if_neg (by decide), if_neg (by decide), if_pos (Or.inl rfl), hres,
        hkey3 (Or.inl rfl)]
      exact beq_self_eq_true _
    · subst h1
      unfold matchesNaturalKey
      rw [if_neg (by decide), if_neg (by decide), if_pos (Or.inr rfl), hres,
        hkey3 (Or.inr rfl)]
      exact beq_self_eq_true _

theorem importStep_mono (st : TrackerState) (now : DateTime) (gp : String)
    (d : DiscoveredResource) (added : Bool) (st' : TrackerState)
    (h : importStep st now gp d = .ok (added, st')) (p r : String) :
    ∃ tail, getDeploymentsByRegion st'.inventory p r =
      getDeploymentsByRegion st.inventory p r ++ tail := by
  rcases importStep_ok_cases st now gp d added st' h with
    ⟨-, hst, -⟩ | ⟨-, -, rd, q, hrd, hadd, hst⟩
  · subst hst; exact ⟨[], (List.append_nil _).symm⟩
  · subst hst
    obtain ⟨rec, hinv, -, -, -, -, -⟩ :=
      addDeployment_props st now (generateDeploymentId d) d.provider d.region rd
        (some [("instance_type", optPy d.instance_type),
               ("deployment_uid", optPy d.deployment_uid)]) q hadd
    rw [hinv, getDBR_insert]
    exact ⟨_, rfl⟩

theorem anyMatch_mono (st st' : TrackerState) (gp : String) (d : DiscoveredResource)
    (hmono : ∀ p r, ∃ tail, getDeploymentsByRegion st'.inventory p r =
      getDeploymentsByRegion st.inventory p r ++ tail)
    (h : anyMatch st gp d = true) : anyMatch st' gp d = true := by
  unfold anyMatch at h ⊢
  obtain ⟨tail, htail⟩ := hmono d.provider d.region
  rw [htail, List.any_append, h, Bool.true_or]

theorem importList_run (now : DateTime) (gp : String)
    (hgp : gp ∈ (["aws", "azure", "digitalocean", "hetzner"] : List String)) :
    ∀ (ds : List DiscoveredResource) (st : TrackerState) (cnt : Nat),
      (∀ d ∈ ds, requiredFields gp d) →
      ∃ cnt' st', importList now gp st cnt ds = (cnt', st', true) ∧
        (∀ p r, ∃ tail, getDeploymentsByRegion st'.inventory p r =
          getDeploymentsByRegion st.inventory p r ++ tail) ∧
        (∀ d ∈ ds, anyMatch st' gp d = true) := by
  intro ds
  induction ds with
  | nil =>
    intro st cnt _
    exact ⟨cnt, st, rfl, fun p r => ⟨[], (List.append_nil _).symm⟩, by simp⟩
  | cons d rest ih =>
    intro st cnt hreq
    obtain ⟨added, st1, hstep⟩ := importStep_isOk st now gp d (hreq d (by simp))
    obtain ⟨cnt', st', hrun, hmono, hall⟩ :=
      ih st1 (cnt + if added then 1 else 0) (fun d' hd' => hreq d' (by simp [hd']))
    refine ⟨cnt', st', ?_, ?_, ?_⟩
    · simp only [importList]
      rw [hstep]
      exact hrun
    · intro p r
      obtain ⟨t2, ht2⟩ := hmono p r
      obtain ⟨t1, ht1⟩ := importStep_mono st now gp d added st1 hstep p r
      exact ⟨t1 ++ t2, by rw [ht2, ht1, List.append_assoc]⟩
    · intro d' hd'
      rcases List.mem_cons.mp hd' with he | hm
      · subst he
        exact anyMatch_mono st1 st' gp d' hmono
          (importStep_found st now gp d' added st1 hgp hstep)
      · exact hall d' hm

theorem importList_skip (now : DateTime) (gp : String) :
    ∀ (ds : List DiscoveredResource) (st : TrackerState) (cnt : Nat),
      (∀ d ∈ ds, anyMatch st gp d = true) →
      importList now gp st cnt ds = (cnt, st, true) := by
  intro ds
  induction ds with
  | nil => intro st cnt _; rfl
  | cons d rest ih =>
    intro st cnt hall
    have hstep := importStep_skip st now gp d (hall d (by simp))
    simp only [importList]
    rw [hstep]
    simp only [Bool.false_eq_true, if_false, Nat.add_zero]
    exact ih st cnt (fun d' hd' => hall d' (List.mem_cons_of_mem _ hd'))

theorem importGroups_run (now : DateTime) :
    ∀ (D : List (String × List DiscoveredResource)) (st : TrackerState) (cnt : Nat),
      (∀ g ∈ D, g.1 ∈ (["aws", "azure", "digitalocean", "hetzner"] : List String) ∧
        ∀ d ∈ g.2, requiredFields g.1 d) →
      ∃ cnt' st', importGroups now st cnt D = (cnt', st') ∧
        (∀ p r, ∃ tail, getDeploymentsByRegion st'.inventory p r =
          getDeploymentsByRegion st.inventory p r ++ tail) ∧
        (∀ g ∈ D, ∀ d ∈ g.2, anyMatch st' g.1 d = true) := by
  intro D
  induction D with
  | nil =>
    intro st cnt _
    exact ⟨cnt, st, rfl, fun p r => ⟨[], (List.append_nil _).symm⟩, by simp⟩
  | cons g rest ih =>
    obtain ⟨gp, ds⟩ := g
    intro st cnt hD
    have hg := hD (gp, ds) (by simp)
    obtain ⟨cnt1, st1, hrun1, hmono1, hall1⟩ := importList_run now gp hg.1 ds st cnt hg.2
    obtain ⟨cnt', st', hrun, hmono, hall⟩ :=
      ih st1 cnt1 (fun g' hg' => hD g' (by simp [hg']))
    refine ⟨cnt', st', ?_, ?_, ?_⟩
    · simp only [importGroups]
      rw [hrun1]
      exact hrun
    · intro p r
      obtain ⟨t2, ht2⟩ := hmono p r
      obtain ⟨t1, ht1⟩ := hmono1 p r
      exact ⟨t1 ++ t2, by rw [ht2, ht1, List.append_assoc]⟩
    · intro g' hg' d hd
      rcases List.mem_cons.mp hg' with he | hm
      · subst he
        exact anyMatch_mono st1 st' gp d hmono (hall1 d hd)
      · exact hall g' hm d hd

theorem importGroups_skip (now : DateTime) :
    ∀ (D : List (String × List DiscoveredResource)) (st : TrackerState) (cnt : Nat),
      (∀ g ∈ D, ∀ d ∈ g.2, anyMatch st g.1 d = true) →
      importGroups now st cnt D = (cnt, st) := by
  intro D
  induction D with
  | nil => intro st cnt _; rfl
  | cons g rest ih =>
    obtain ⟨gp, ds⟩ := g
    intro st cnt hall
    have hlist := importList_skip now gp ds st cnt (fun d hd => hall (gp, ds) (by simp) d hd)
    simp only [importGroups]
    rw [hlist]
    exact ih st cnt (fun g' hg' d hd => hall g' (by simp [hg']) d hd)

/-- C4: import of discovered resources is idempotent.  A resource is
skipped exactly when an existing entry in its provider/region bucket
matches the group's natural key (AWS `instance_id`, Azure `vm_name`,
DigitalOcean/Hetzner `instance_name`); and for any discovery set whose
groups carry one of the four providers and whose resources carry the
fields discovery populates, a second `import_discovered_deployments` run
on the state the first run left behind imports 0 deployments and leaves
the ledger unchanged. -/
theorem claim_C4_import_idempotent (st : TrackerState) (now now2 : DateTime)
    (D : List (String × List DiscoveredResource))
    (hD : ∀ g ∈ D, g.1 ∈ (["aws", "azure", "digitalocean", "hetzner"] : List String) ∧
      ∀ d ∈ g.2, requiredFields g.1 d) :
    (∀ (st0 : TrackerState) (gp : String) (d : DiscoveredResource) (added : Bool)
        (st1 : TrackerState), importStep st0 now gp d = .ok (added, st1) →
      (added = false ↔ (getDeploymentsByRegion st0.inventory d.provider d.region).any
        (fun e => matchesNaturalKey gp e d) = true)) ∧
    importDiscovered (importDiscovered st now D).2 now2 D =
      (0, (importDiscovered st now D).2) := by
  constructor
  · intro st0 gp d added st1 h
    rcases importStep_ok_cases st0 now gp d added st1 h with
      ⟨hadd, -, hany⟩ | ⟨hadd, hany, -⟩
    · unfold anyMatch at hany
      exact ⟨fun _ => hany, fun _ => hadd⟩
    · subst hadd
      unfold anyMatch at hany
      exact ⟨fun hfalse => absurd hfalse (by simp), fun htrue => absurd htrue (by simp [hany])⟩
  · unfold importDiscovered
    obtain ⟨cnt', st', hrun, hmono, hall⟩ := importGroups_run now D st 0 hD
    rw [hrun]
    exact importGroups_skip now2 D st' 0 (fun g hg d hd => hall g hg d hd)

/-- A one-resource AWS discovery set, shaped exactly like the dicts
`CloudDiscovery.discover_aws_deployments` emits. -/
def witnessDiscovery : List (String × List DiscoveredResource) :=
  [("aws",
    [{ provider := "aws", region := "us-east-1", instance_id := some "i-0abc123",
       instance_name := none, vm_name := none, resource_group := none,
       public_ip := some "1.2.3.4", instance_type := some "t3.micro",
       deployment_uid := some "abc123", created_at := some "2025-10-01T00:00:00",
       discovered_at := "2025-10-12T14:30:05" }])]

theorem claim_C4_witness :
    (∀ g ∈ witnessDiscovery,
      g.1 ∈ (["aws", "azure", "digitalocean", "hetzner"] : List String) ∧
      ∀ d ∈ g.2, requiredFields g.1 d) ∧
    importDiscovered
        (importDiscovered emptyState ⟨2025, 10, 12, 14, 30, 5⟩ witnessDiscovery).2
        ⟨2025, 10, 12, 15, 0, 0⟩ witnessDiscovery =
      (0, (importDiscovered emptyState ⟨2025, 10, 12, 14, 30, 5⟩ witnessDiscovery).2) :=
  ⟨by decide,
    (claim_C4_import_idempotent emptyState ⟨2025, 10, 12, 14, 30, 5⟩
      ⟨2025, 10, 12, 15, 0, 0⟩ witnessDiscovery (by decide)).2⟩

end ProxyGen
